import Mathlib

/-!
Verification development for `event_bot.py`: a shallow embedding of the
event pipeline (deduplication ledger, record normalisation, region
classification, per-region batching and chunked dispatch), together with
theorems settling the specification's claims about it.

Strings are modelled by Lean `String` (a list of unicode code points, which
matches Python `str` indexing/slicing); the Google-Sheets ledger is a list
of rows; fallible external calls are passed in as `Except` outcomes.
-/

namespace EventBot

/-- Python `needle in hay`: contiguous-substring test on strings. -/
def pyIn (needle hay : String) : Bool := decide (needle.data <:+: hay.data)

/-- ASCII lower-casing of one character (model of Python `str.lower`; the
keywords and URLs this program compares only case-fold in the ASCII range). -/
def pyLower (c : Char) : Char :=
  if 'A' ≤ c ∧ c ≤ 'Z' then Char.ofNat (c.toNat + 32) else c

/-- Python `s.lower()`. -/
def lowerStr (s : String) : String := String.mk (s.data.map pyLower)

/-- Python whitespace (ASCII range) for `str.strip()`. -/
def isPySpace (c : Char) : Bool :=
  c == ' ' || c == '\t' || c == '\n' || c == '\r' || c == '\x0b' || c == '\x0c'

/-- Python `s.strip()`. -/
def trimStr (s : String) : String :=
  String.mk (((s.data.dropWhile isPySpace).reverse.dropWhile isPySpace).reverse)

/-- Python `s[:n]` (slice keeping the first `n` characters). -/
def takeChars (n : Nat) (s : String) : String := String.mk (s.data.take n)

/-- Python `sep.join(xs)`. -/
def joinSep (sep : String) (xs : List String) : String :=
  String.mk (List.intercalate sep.data (xs.map String.data))

/-- Python `s.startswith(pre)`. -/
def pyStartsWith (s pre : String) : Bool := pre.data.isPrefixOf s.data

/-- One row of the `sent_events` sheet: `[送信日, イベント名, 開催期間, URL, 会場]`
in that fixed order (`save_event`, line 86). -/
structure Row where
  sent_date : String
  name : String
  period : String
  url : String
  venue : String
deriving DecidableEq

/-- `sheet.col_values(4)`: the URL (dedupe key) column of the ledger. -/
def col4 (sheet : List Row) : List String := sheet.map (fun r => r.url)

/-- `already_sent(event_url, sheet)` (event_bot.py lines 52-60).  The column
read is passed as an `Except` outcome: `Except.error` models the
`except Exception` branch, which logs a warning and returns `False`
(fail open).  The function is total: no outcome propagates an exception. -/
def already_sent (event_url : String) (colRead : Except String (List String)) : Bool :=
  if event_url = "" then false
  else
    match colRead with
    | Except.ok records => decide (event_url ∈ records)
    | Except.error _ => false

/-- The event dict passed to `save_event` / `format_event_message`; a missing
key is modelled as `""` (the code reads every field with `.get`, and `None`
and `""` are both falsy in the `or`-chains that consume them).  `end` is a
Lean keyword, hence the field name `end_`; `locationName` stands for the
nested `location["name"]`. -/
structure EventDict where
  name : String := ""
  start : String := ""
  end_ : String := ""
  startDate : String := ""
  endDate : String := ""
  official_url : String := ""
  url : String := ""
  venue : String := ""
  locationName : String := ""
deriving DecidableEq

/-- Zero points of the runs of ten consecutive code points that make up
Unicode general category Nd (decimal digits, Unicode 15.0).  Python's
`\d` in a `str` pattern matches exactly this category — full-width
`０`-`９` (U+FF10-FF19) included, which occur routinely in the Japanese
page text this program parses — and `int()` converts such digits by
their position in the run. -/
def ND_ZEROS : List Nat :=
  [0x30, 0x660, 0x6F0, 0x7C0, 0x966, 0x9E6, 0xA66, 0xAE6, 0xB66, 0xBE6,
   0xC66, 0xCE6, 0xD66, 0xDE6, 0xE50, 0xED0, 0xF20, 0x1040, 0x1090, 0x17E0,
   0x1810, 0x1946, 0x19D0, 0x1A80, 0x1A90, 0x1B50, 0x1BB0, 0x1C40, 0x1C50,
   0xA620, 0xA8D0, 0xA900, 0xA9D0, 0xA9F0, 0xAA50, 0xABF0, 0xFF10,
   0x104A0, 0x10D30, 0x11066, 0x110F0, 0x11136, 0x111D0, 0x112F0, 0x11450,
   0x114D0, 0x11650, 0x116C0, 0x11730, 0x118E0, 0x11950, 0x11C50, 0x11D50,
   0x11DA0, 0x11F50, 0x16A60, 0x16AC0, 0x16B50,
   0x1D7CE, 0x1D7D8, 0x1D7E2, 0x1D7EC, 0x1D7F6,
   0x1E140, 0x1E2F0, 0x1E4F0, 0x1E950, 0x1FBF0]

/-- Python `\d`: is `c` a Unicode decimal digit (category Nd)? -/
def pyIsDigit (c : Char) : Bool :=
  ND_ZEROS.any (fun z => z ≤ c.toNat && c.toNat ≤ z + 9)

/-- The numeric value `int()` assigns to a Unicode decimal digit: its
offset from the zero of its run (`0` for non-digits, never consulted
there). -/
def pyDigitVal (c : Char) : Nat :=
  match ND_ZEROS.find? (fun z => z ≤ c.toNat && c.toNat ≤ z + 9) with
  | some z => c.toNat - z
  | none => 0

/-- `re.match(r"\d{4}-\d{2}-\d{2}", d)`: does `d` start with an ISO-shaped
date?  `\d` is the Unicode digit class, so full-width digits match and
are truncated by `norm` just like ASCII ones. -/
def isIsoPrefix (d : String) : Bool :=
  match d.data with
  | c0 :: c1 :: c2 :: c3 :: c4 :: c5 :: c6 :: c7 :: c8 :: c9 :: _ =>
    pyIsDigit c0 && pyIsDigit c1 && pyIsDigit c2 && pyIsDigit c3 && c4 == '-' &&
    pyIsDigit c5 && pyIsDigit c6 && c7 == '-' && pyIsDigit c8 && pyIsDigit c9
  | _ => false

/-- `norm` inside `save_event` (lines 72-76): truncate to 10 characters when
the value starts like an ISO date, otherwise keep it verbatim. -/
def norm (d : String) : String :=
  if d = "" then "" else if isIsoPrefix d then takeChars 10 d else d

/-- The period string written to the ledger row (lines 77-82).  The
separator is U+FF5E FULLWIDTH TILDE surrounded by single spaces, exactly as
in the source f-string. -/
def save_period (start end_ : String) : String :=
  if start != "" && end_ != "" then norm start ++ " ～ " ++ norm end_
  else if start != "" then norm start
  else ""

/-- `start = event.get("start") or event.get("startDate") or ""` (line 70). -/
def save_start (ev : EventDict) : String :=
  if ev.start != "" then ev.start else ev.startDate

/-- `end = event.get("end") or event.get("endDate") or ""` (line 71). -/
def save_end (ev : EventDict) : String :=
  if ev.end_ != "" then ev.end_ else ev.endDate

/-- The row built by `save_event` (lines 62-86). -/
def save_row (today : String) (ev : EventDict) : Row :=
  { sent_date := today
    name := ev.name
    period := save_period (save_start ev) (save_end ev)
    url := if ev.official_url != "" then ev.official_url else ev.url
    venue := ev.venue }

/-- `save_event(sheet, event)` (lines 62-88): appends one row.  The
`append_row` outcome is passed as an `Except`; the `except Exception`
branch (lines 85-88) logs and swallows a failure, leaving the sheet as it
was, and the function is total: neither outcome propagates. -/
def save_event (sheet : List Row) (ev : EventDict) (today : String)
    (writeOutcome : Except String Unit) : List Row :=
  match writeOutcome with
  | Except.ok _ => sheet ++ [save_row today ev]
  | Except.error _ => sheet

/-- The `date_line` local of `format_event_message` (lines 310-312): the
`start`/`end_` fields are used verbatim, while `startDate`/`endDate` are
truncated to their first 10 characters unconditionally. -/
def msg_date_line (ev : EventDict) : String :=
  let start := if ev.start != "" then ev.start
               else if ev.startDate != "" then takeChars 10 ev.startDate else ""
  let end_ := if ev.end_ != "" then ev.end_
              else if ev.endDate != "" then takeChars 10 ev.endDate else ""
  if start != "" && end_ != "" then start ++ " ～ " ++ end_ else start

/-- `format_event_message(ev)` (lines 308-315). -/
def format_event_message (ev : EventDict) : String :=
  let name := trimStr ev.name
  let venue := if ev.venue != "" then ev.venue else ev.locationName
  let url := if ev.official_url != "" then ev.official_url else ev.url
  "🎪 " ++ name ++ "\n📅 " ++ msg_date_line ev ++ "\n📍 " ++ venue ++ "\n🔗 " ++ url

/-!
### Date-range parsing (`extract_date_range_from_text`, lines 208-223)

The four regular expressions are embedded as backtracking parsers over the
character list, reproducing Python `re.search` semantics for exactly these
patterns: leftmost start position wins; `\d{1,2}` is greedy (two digits
tried before one); `\D*` before a digit class is forced maximal munch;
`.*?` is a lazy scan that cannot cross a newline (`.` excludes `\n`).
The digit class is Python's Unicode `\d` (`pyIsDigit`), so full-width
dates such as ２０２４年５月１日 parse exactly as the program parses them.
-/

/-- `\D`: the complement of the Unicode digit class. -/
def notDigit (c : Char) : Bool := !pyIsDigit c

/-- Exactly `n` digits (`\d{n}`), returning them and the rest. -/
def pDigits : Nat → List Char → Option (List Char × List Char)
  | 0, cs => some ([], cs)
  | _ + 1, [] => none
  | n + 1, c :: cs =>
    if pyIsDigit c then
      match pDigits n cs with
      | some (ds, r) => some (c :: ds, r)
      | none => none
    else none

/-- `(\d{1,2})` followed by continuation `k`: greedy, so two digits are
tried before one, backtracking into `k`. -/
def pD12 {α : Type} (k : List Char → Option α) : List Char → Option (List Char × α)
  | [] => none
  | [c1] =>
    if pyIsDigit c1 then
      match k [] with
      | some a => some ([c1], a)
      | none => none
    else none
  | c1 :: c2 :: rest =>
    if pyIsDigit c1 then
      if pyIsDigit c2 then
        match k rest with
        | some a => some ([c1, c2], a)
        | none =>
          match k (c2 :: rest) with
          | some a => some ([c1], a)
          | none => none
      else
        match k (c2 :: rest) with
        | some a => some ([c1], a)
        | none => none
    else none

/-- `(\d{1,2})月\D*(\d{1,2})日` at the current position:
`(month, day, rest)`. -/
def parseMD (cs : List Char) : Option (List Char × List Char × List Char) :=
  pD12 (fun r1 =>
    match r1 with
    | '月' :: r2 =>
      pD12 (fun r4 =>
        match r4 with
        | '日' :: r5 => some r5
        | _ => none) (r2.dropWhile notDigit)
    | _ => none) cs

/-- `(\d{4})年\D*(\d{1,2})月\D*(\d{1,2})日` at the current position:
`(year, month, day, rest)`. -/
def parseYMD (cs : List Char) : Option (List Char × List Char × List Char × List Char) :=
  match pDigits 4 cs with
  | some (y, '年' :: r1) =>
    match parseMD (r1.dropWhile notDigit) with
    | some (m, d, rest) => some (y, m, d, rest)
    | none => none
  | _ => none

/-- Lazy scan `.*?` followed by `suffix`: the suffix is tried at the current
position first, then one (non-newline) character later, and so on. -/
def lazyFind {α : Type} (suffix : List Char → Option α) : List Char → Option α
  | [] => suffix []
  | c :: rest =>
    match suffix (c :: rest) with
    | some a => some a
    | none => if c = '\n' then none else lazyFind suffix rest

/-- `.*?〜` followed by `after` (which itself may scan): failure of `after`
backtracks to the next reachable `〜`, as the lazy stars do in Python. -/
def matchTilde {α : Type} (after : List Char → Option α) (cs : List Char) : Option α :=
  lazyFind (fun cs2 =>
    match cs2 with
    | '〜' :: r2 => after r2
    | _ => none) cs

/-- Pattern `p1` (line 210) at one start position: two full dates joined by
`〜`. -/
def matchP1 (cs : List Char) :
    Option (List Char × List Char × List Char × List Char × List Char × List Char) :=
  match parseYMD cs with
  | some (y1, m1, d1, r) =>
    matchTilde (fun cs3 =>
      lazyFind (fun cs4 =>
        match parseYMD cs4 with
        | some (y2, m2, d2, _) => some (y1, m1, d1, y2, m2, d2)
        | none => none) cs3) r
  | none => none

/-- Pattern `p2` (line 214) at one start position: a full date, `〜`, then a
month/day pair without a year. -/
def matchP2 (cs : List Char) :
    Option (List Char × List Char × List Char × List Char × List Char) :=
  match parseYMD cs with
  | some (y1, m1, d1, r) =>
    matchTilde (fun cs3 =>
      lazyFind (fun cs4 =>
        match parseMD cs4 with
        | some (m2, d2, _) => some (y1, m1, d1, m2, d2)
        | none => none) cs3) r
  | none => none

/-- Pattern `p3` (line 218) at one start position: a single full date. -/
def matchP3 (cs : List Char) : Option (List Char × List Char × List Char) :=
  match parseYMD cs with
  | some (y, m, d, _) => some (y, m, d)
  | none => none

/-- The ISO pattern `(\d{4}-\d{2}-\d{2})` (line 221) at one start position. -/
def parseISO (cs : List Char) : Option (List Char) :=
  match cs with
  | c0 :: c1 :: c2 :: c3 :: '-' :: c5 :: c6 :: '-' :: c8 :: c9 :: _ =>
    if pyIsDigit c0 && pyIsDigit c1 && pyIsDigit c2 && pyIsDigit c3 &&
        pyIsDigit c5 && pyIsDigit c6 && pyIsDigit c8 && pyIsDigit c9 then
      some [c0, c1, c2, c3, '-', c5, c6, '-', c8, c9]
    else none
  | _ => none

/-- `re.search`: try the pattern at each start position, left to right. -/
def reSearch {α : Type} (m : List Char → Option α) : List Char → Option α
  | [] => m []
  | c :: rest =>
    match m (c :: rest) with
    | some a => some a
    | none => reSearch m rest

/-- Python `int` on a run of (Unicode) decimal digits. -/
def digitsToNat (ds : List Char) : Nat :=
  ds.foldl (fun n c => n * 10 + pyDigitVal c) 0

/-- Python `f"{n:0wd}"` for a nonnegative integer: decimal digits, left
zero-padded to width `w`. -/
def padNum (w n : Nat) : List Char :=
  let ds := Nat.toDigits 10 n
  List.replicate (w - ds.length) '0' ++ ds

/-- `f"{int(y):04d}-{int(m):02d}-{int(d):02d}"`. -/
def fmtDate (y m d : List Char) : String :=
  String.mk (padNum 4 (digitsToNat y) ++ '-' :: padNum 2 (digitsToNat m) ++
    '-' :: padNum 2 (digitsToNat d))

/-- `extract_date_range_from_text(text)` (lines 208-223): the four patterns
are tried strict-to-loose, first match winning. -/
def extract_date_range_from_text (text : String) : String × String :=
  if text = "" then ("", "")
  else
    match reSearch matchP1 text.data with
    | some (y1, m1, d1, y2, m2, d2) => (fmtDate y1 m1 d1, fmtDate y2 m2 d2)
    | none =>
      match reSearch matchP2 text.data with
      | some (y1, m1, d1, m2, d2) => (fmtDate y1 m1 d1, fmtDate y1 m2 d2)
      | none =>
        match reSearch matchP3 text.data with
        | some (y, m, d) => (fmtDate y m d, fmtDate y m d)
        | none =>
          match reSearch parseISO text.data with
          | some iso => (String.mk iso, String.mk iso)
          | none => ("", "")

/-!
### Official-URL extraction fallback (`extract_official_url_from_soup`,
lines 158-193)

Only the anchor-scanning fallback (lines 176-193) is embedded: it is
entered when none of the labelled searches succeeded, and it works on the
flat list of the page's anchor hrefs in document order.
-/

/-- `EXCLUDE_DOMAINS` (lines 138-142). -/
def EXCLUDE_DOMAINS : List String :=
  ["art.nikkei.com", "doubleclick.net", "adservice.google.com",
   "instagram.com", "twitter.com", "facebook.com", "x.com", "youtube.com",
   "lin.ee", "mailchi.mp"]

/-- Characters allowed in a URL scheme: `urllib.parse`'s `scheme_chars`
is the ASCII constant `ascii_letters + digits + '+-.'`, so ASCII classes
are the faithful model here (unlike the regex `\d` elsewhere). -/
def isSchemeChar (c : Char) : Bool := c.isAlpha || c.isDigit || c == '+' || c == '-' || c == '.'

/-- Model of `urllib.parse.urlparse(href).netloc`: when the text (after an
optional `scheme:`) starts with `//`, the authority runs up to the next
`/`, `?` or `#`; otherwise the netloc is empty. -/
def netlocOf (href : String) : String :=
  let cs := href.data
  let rest :=
    match cs.span (fun c => c != ':') with
    | (before, ':' :: r) =>
      if before ≠ [] ∧ before.all isSchemeChar ∧ (before.headD ' ').isAlpha then r else cs
    | _ => cs
  match rest with
  | '/' :: '/' :: r => String.mk (r.takeWhile (fun c => c != '/' && c != '?' && c != '#'))
  | _ => ""

/-- The candidate scan (lines 177-185): each href is stripped; non-`http`
hrefs and the source's own domain are dropped; survivors are tagged with
whether their netloc hits the block-list. -/
def fallbackCandidates (hrefs : List String) : List (Bool × String) :=
  hrefs.filterMap (fun h0 =>
    let href := trimStr h0
    if !pyStartsWith href "http" then none
    else
      let netloc := lowerStr (netlocOf href)
      if pyIn "tokyoartbeat.com" netloc then none
      else some (EXCLUDE_DOMAINS.any (fun bad => pyIn bad netloc), href))

/-- The selection loop over candidates (lines 186-190), kept verbatim: note
that both arms of the venue-hint conditional return `href`. -/
def firstSurvivor (venue_hint : String) : List (Bool × String) → Option String
  | [] => none
  | (bad, href) :: rest =>
    if !bad then
      if venue_hint != "" && pyIn (lowerStr venue_hint) (lowerStr href) then some href
      else some href
    else firstSurvivor venue_hint rest

/-- The fallback tail of `extract_official_url_from_soup` (lines 176-193). -/
def extract_official_url_fallback (hrefs : List String) (venue_hint : String) : String :=
  let candidates := fallbackCandidates hrefs
  match firstSurvivor venue_hint candidates with
  | some href => href
  | none =>
    match candidates with
    | (_, href) :: _ => href
    | [] => ""

/-!
### Region classification (`PREF_KEYWORD_MAP`, `map_venue_to_prefecture`,
lines 276-305)
-/

def TOKYO_KEYS : List String :=
  ["東京都", "東京", "上野", "六本木", "銀座", "新宿", "浅草", "渋谷", "池袋", "お台場",
   "品川", "丸の内", "日比谷", "有楽町", "国立新美術館", "東京都美術館", "国立西洋美術館",
   "森美術館", "六本木ミュージアム", "MMM", "メゾン・デ・ミュゼ", "スカイツリー"]

def KANAGAWA_KEYS : List String :=
  ["横浜", "川崎", "鎌倉", "藤沢", "相模原", "箱根", "新横浜", "みなとみらい",
   "横浜美術館", "横浜市", "横浜港"]

def CHIBA_KEYS : List String :=
  ["幕張", "千葉", "成田", "船橋", "市川", "浦安", "幕張メッセ", "幕張新都心", "房総", "海浜幕張"]

def SAITAMA_KEYS : List String :=
  ["埼玉", "大宮", "所沢", "川越", "越谷", "秩父", "熊谷", "狭山", "入間", "飯能", "所沢", "さいたま"]

/-- `PREF_KEYWORD_MAP` (lines 276-281): an insertion-ordered dict, scanned
in declaration order. -/
def PREF_KEYWORD_MAP : List (String × List String) :=
  [("東京", TOKYO_KEYS), ("神奈川", KANAGAWA_KEYS), ("千葉", CHIBA_KEYS), ("埼玉", SAITAMA_KEYS)]

def URL_KEYS_KANAGAWA : List String := ["yokohama", "kanagawa", "kawasaki", "sagamihara", "yokosuka"]

def URL_KEYS_CHIBA : List String := ["makuhari", "chiba", "narita", "funabashi", "urayasu", "sakura"]

def URL_KEYS_SAITAMA : List String := ["saitama", "omiya", "kawagoe", "tokorozawa", "hanno", "hanno"]

def URL_KEYS_TOKYO : List String :=
  ["tokyo", "roppongi", "ginza", "asakusa", "ueno", "shibuya", "shinjuku", "tocho"]

/-- `map_venue_to_prefecture(venue, official_url)` (lines 283-305). -/
def map_venue_to_prefecture (venue : String) (official_url : String) : Option String :=
  match
    (if venue != "" then
      PREF_KEYWORD_MAP.findSome? (fun pk =>
        if pk.2.any (fun k => pyIn (lowerStr k) (lowerStr venue)) then some pk.1 else none)
     else none) with
  | some pref => some pref
  | none =>
    match
      (if official_url != "" then
        let u := lowerStr official_url
        if URL_KEYS_KANAGAWA.any (fun x => pyIn x u) then some "神奈川"
        else if URL_KEYS_CHIBA.any (fun x => pyIn x u) then some "千葉"
        else if URL_KEYS_SAITAMA.any (fun x => pyIn x u) then some "埼玉"
        else if URL_KEYS_TOKYO.any (fun x => pyIn x u) then some "東京"
        else none
       else none) with
    | some pref => some pref
    | none =>
      if pyIn "神奈川" venue then some "神奈川"
      else if pyIn "千葉" venue then some "千葉"
      else if pyIn "埼玉" venue then some "埼玉"
      else if pyIn "東京" venue || pyIn "東京都" venue then some "東京"
      else none

/-!
### The main pipeline (`main`, lines 318-399)

The external fetch layer is a parameter (`fetchW pref` stands for
`fetch_walkerplus_events` on that prefecture's URL; `tabEvents` for the
list returned by `fetch_tokyoartbeat_officials`); the ledger is the list
of rows; the dispatcher is modelled by the ordered list of broadcast
texts.  Every step also records its externally visible actions (ledger
appends and broadcasts) in execution order.
-/

/-- A Walker+ JSON-LD event, restricted to the fields the script reads;
`locationName` stands for the nested `location["name"]`. -/
structure WEv where
  name : String := ""
  url : String := ""
  startDate : String := ""
  endDate : String := ""
  locationName : String := ""
deriving DecidableEq

/-- A Tokyo Art Beat event as built by `fetch_tokyoartbeat_officials`
(lines 264-270). -/
structure TEv where
  name : String := ""
  start : String := ""
  end_ : String := ""
  venue : String := ""
  official_url : String := ""
deriving DecidableEq

/-- The dict passed to `format_event_message` for a Walker+ event
(lines 344-350): note `official_url` is set to the JSON-LD `url`. -/
def walkerCanonical (ev : WEv) : EventDict :=
  { name := ev.name, startDate := ev.startDate, endDate := ev.endDate,
    locationName := ev.locationName, official_url := ev.url }

/-- The dict passed to `save_event` for a Walker+ event (line 353). -/
def walkerSaveDict (ev : WEv) : EventDict :=
  { name := ev.name, startDate := ev.startDate, endDate := ev.endDate,
    url := ev.url, venue := ev.locationName }

/-- The dict passed to `format_event_message` for a TAB event (line 374). -/
def tabCanonical (ev : TEv) : EventDict :=
  { name := ev.name, start := ev.start, end_ := ev.end_,
    venue := ev.venue, official_url := ev.official_url }

/-- `dedupe_key = ev.get("official_url") or (ev.get("name","") + "_" + (ev.get("start","") or ""))`
(line 368). -/
def dedupe_key (ev : TEv) : String :=
  if ev.official_url != "" then ev.official_url else ev.name ++ "_" ++ ev.start

/-- The dict passed to `save_event` for a TAB event (line 375). -/
def tabSaveDict (ev : TEv) : EventDict :=
  { name := ev.name, start := ev.start, end_ := ev.end_,
    official_url := ev.official_url, url := dedupe_key ev, venue := ev.venue }

/-- Region choice for a TAB event (lines 364-366): classifier result, with
the fallback `pref = "東京"` when unresolved (`None`; the classifier never
returns an empty string, so Python falsiness coincides with `None`). -/
def tabPref (ev : TEv) : String :=
  (map_venue_to_prefecture ev.venue ev.official_url).getD "東京"

/-- The formatted message of a Walker+ event (lines 344-350). -/
def wMsg (ev : WEv) : String := format_event_message (walkerCanonical ev)

/-- The formatted message of a TAB event (line 374). -/
def tMsg (ev : TEv) : String := format_event_message (tabCanonical ev)

/-- The ledger row recorded for a Walker+ event (line 353). -/
def wRow (today : String) (ev : WEv) : Row := save_row today (walkerSaveDict ev)

/-- The ledger row recorded for a TAB event (line 375). -/
def tRow (today : String) (ev : TEv) : Row := save_row today (tabSaveDict ev)

/-- Regional buckets: `messages_map`, an absent key modelled by `[]`. -/
abbrev Buckets := String → List String

/-- A region's banner line (line 331). -/
def banner (pref : String) : String := "📍 " ++ pref ++ " の新着イベント 🎪"

/-- The fixed region order (lines 323-328 and line 381). -/
def prefOrder : List String := ["東京", "神奈川", "千葉", "埼玉"]

/-- `messages_map` as initialised at line 331. -/
def initBuckets : Buckets := fun p => if prefOrder.contains p then [banner p] else []

/-- `messages_map.setdefault(pref, [banner]); messages_map[pref].append(msg)`
(lines 373-374). -/
def bucketAppend (m : Buckets) (pref msg : String) : Buckets :=
  fun p => if p = pref then (if m pref = [] then [banner pref] else m pref) ++ [msg] else m p

def CHUNK_SIZE : Nat := 3500

/-- `[combined[i:i+CHUNK_SIZE] for i in range(0, len(combined), CHUNK_SIZE)]`
(line 391): purely positional fixed-size slices; `range(0, n, step)` has
`⌈n / step⌉` elements, the `k`-th being `k * step`. -/
def chunk (cs : List Char) : List String :=
  (List.range ((cs.length + CHUNK_SIZE - 1) / CHUNK_SIZE)).map
    (fun k => String.mk ((cs.drop (k * CHUNK_SIZE)).take CHUNK_SIZE))

/-- One bucket's dispatch (lines 384-394): skipped unless it holds more
than its banner; otherwise joined with blank lines and sliced into
chunks. -/
def bucketOut (bucket : List String) : List String :=
  if bucket.length ≤ 1 then []
  else chunk (joinSep "\n\n" bucket).data

/-- The dispatch loop (lines 380-395): buckets in the fixed region order,
each bucket's chunks broadcast in order. -/
def outputPhase (m : Buckets) : List String :=
  (prefOrder.map (fun pref => bucketOut (m pref))).flatten

/-- Externally visible actions of one run, in execution order. -/
inductive Action where
  | append (r : Row)
  | broadcast (text : String)
deriving DecidableEq

/-- Result of one Walker+ per-prefecture loop: final sheet, the selected
(bucketed and recorded) events in order, the events left unprocessed by a
cap break, and the emitted actions. -/
structure WRes where
  sheet : List Row
  sel : List WEv
  rem : List WEv
  trace : List Action

def PER_PREF_LIMIT : Nat := 10

/-- The Walker+ per-prefecture loop (lines 337-356). -/
def processW (today : String) : List WEv → List Row → Nat → WRes
  | [], sheet, _ => ⟨sheet, [], [], []⟩
  | ev :: rest, sheet, cnt =>
    if ev.url = "" then processW today rest sheet cnt
    else if already_sent ev.url (Except.ok (col4 sheet)) then processW today rest sheet cnt
    else
      let sheet' := save_event sheet (walkerSaveDict ev) today (Except.ok ())
      if cnt + 1 ≥ PER_PREF_LIMIT then ⟨sheet', [ev], rest, [Action.append (wRow today ev)]⟩
      else
        let r := processW today rest sheet' (cnt + 1)
        ⟨r.sheet, ev :: r.sel, r.rem, Action.append (wRow today ev) :: r.trace⟩

/-- Result of the TAB loop. -/
structure TRes where
  sheet : List Row
  buckets : Buckets
  sel : List TEv
  rem : List TEv
  trace : List Action

/-- The TAB loop (lines 361-378). -/
def processT (today : String) : List TEv → List Row → Buckets → Nat → TRes
  | [], sheet, m, _ => ⟨sheet, m, [], [], []⟩
  | ev :: rest, sheet, m, cnt =>
    let key := dedupe_key ev
    if key = "" then processT today rest sheet m cnt
    else if already_sent key (Except.ok (col4 sheet)) then processT today rest sheet m cnt
    else
      let m' := bucketAppend m (tabPref ev) (tMsg ev)
      let sheet' := save_event sheet (tabSaveDict ev) today (Except.ok ())
      if cnt + 1 ≥ 10 then ⟨sheet', m', [ev], rest, [Action.append (tRow today ev)]⟩
      else
        let r := processT today rest sheet' m' (cnt + 1)
        ⟨r.sheet, r.buckets, ev :: r.sel, r.rem, Action.append (tRow today ev) :: r.trace⟩

/-- Result of the whole Walker+ phase. -/
structure WPhase where
  sheet : List Row
  buckets : Buckets
  sels : List (List WEv)
  rems : List (List WEv)
  trace : List Action

/-- The Walker+ phase over the prefecture dict (lines 333-356) in its fixed
iteration order; each prefecture's new messages are appended to its
bucket (line 351). -/
def walkerPhase (today : String) (fetchW : String → List WEv) :
    List String → List Row → Buckets → WPhase
  | [], sheet, m => ⟨sheet, m, [], [], []⟩
  | pref :: ps, sheet, m =>
    let r := processW today (fetchW pref) sheet 0
    let m' := fun p => if p = pref then m pref ++ r.sel.map wMsg else m p
    let rest := walkerPhase today fetchW ps r.sheet m'
    ⟨rest.sheet, rest.buckets, r.sel :: rest.sels, r.rem :: rest.rems, r.trace ++ rest.trace⟩

/-- The observable outcome of one full run of `main`. -/
structure RunResult where
  sheet : List Row
  buckets : Buckets
  wSels : List (List WEv)
  wRems : List (List WEv)
  tSel : List TEv
  tRem : List TEv
  broadcasts : List String
  trace : List Action

/-- One full run of `main` (lines 318-399), modulo the external fetches.
`wRems`/`tRem` are the events left unprocessed when a cap broke a loop;
`trace` lists ledger appends and broadcasts in execution order. -/
def runPipeline (today : String) (fetchW : String → List WEv) (tabEvents : List TEv)
    (sheet0 : List Row) : RunResult :=
  let w := walkerPhase today fetchW prefOrder sheet0 initBuckets
  let t := processT today tabEvents w.sheet w.buckets 0
  let out := outputPhase t.buckets
  { sheet := t.sheet, buckets := t.buckets, wSels := w.sels, wRems := w.rems,
    tSel := t.sel, tRem := t.rem, broadcasts := out,
    trace := w.trace ++ t.trace ++ out.map Action.broadcast }

/-- 10-character `YYYY-MM-DD` shape. -/
def isIso10 (s : String) : Bool := isIsoPrefix s && s.data.length == 10

/-- The output composition as the specification words it (a comparison
definition for claim C6, following the spec's sentence rather than the
code): buckets holding more than their banner line are concatenated in
the fixed region order, separated by a separator line `sepLine`, into one
single combined text, which is then sliced into `CHUNK_SIZE`-character
chunks. -/
def specCombinedOutput (sepLine : String) (m : Buckets) : List String :=
  let kept := (prefOrder.map m).filter (fun b => decide (1 < b.length))
  if kept.isEmpty then []
  else chunk (joinSep sepLine (kept.map (joinSep "\n\n"))).data

/-- Concrete fixture: eleven Walker+ events with distinct URLs. -/
def evs11 : List WEv := (List.range 11).map (fun i => { url := "u" ++ toString i })

/-- Concrete fixture: `evs11` offered to the 東京 listing only. -/
def wfix11 : String → List WEv := fun p => if p = "東京" then evs11 else []

/-- Concrete fixture: fifteen Walker+ events with distinct URLs. -/
def evs15 : List WEv := (List.range 15).map (fun i => { url := "v" ++ toString i })

/-- Concrete fixture: one event in each of two different regions. -/
def wfixTwo : String → List WEv := fun p =>
  if p = "東京" then [{ url := "http://a.example", name := "A" }]
  else if p = "神奈川" then [{ url := "http://b.example", name := "B" }]
  else []

/-- Concrete fixture: a single Walker+ event. -/
def wfixOne : String → List WEv := fun p => if p = "東京" then [{ url := "w1" }] else []

/-- Concrete fixture: a single TAB event. -/
def tabFixOne : List TEv := [{ name := "A", official_url := "http://a.example" }]

/-!
## Theorems

First some small facts about the embedding, shared between claims.
-/

/-- `pyIn` is the contiguous-substring relation. -/
lemma pyIn_iff {a b : String} : pyIn a b = true ↔ a.data <:+: b.data := by
  simp [pyIn]

/-- Substring containment survives lower-casing when the needle is fixed by
lower-casing. -/
lemma pyIn_lowerStr {a b : String} (hfix : a.data.map pyLower = a.data)
    (h : pyIn a b = true) : pyIn a (lowerStr b) = true := by
  rw [pyIn_iff] at h ⊢
  have hm := h.map pyLower
  rw [hfix] at hm
  exact hm

/-- A string containing a nonempty substring is nonempty. -/
lemma ne_empty_of_pyIn {a b : String} (ha : a.data ≠ []) (h : pyIn a b = true) :
    b ≠ "" := by
  rw [pyIn_iff] at h
  intro hb
  subst hb
  obtain ⟨s, t, hst⟩ := h
  simp only [List.append_eq_nil] at *
  rcases hst with ⟨⟨-, h2⟩, -⟩
  exact ha h2

lemma col4_append (s t : List Row) : col4 (s ++ t) = col4 s ++ col4 t :=
  List.map_append _ _ _

/-- The URL column recorded for a Walker+ event is its JSON-LD `url`,
which is also the key checked by `already_sent`. -/
lemma wRow_url (today : String) (ev : WEv) : (wRow today ev).url = ev.url := rfl

/-- The URL column recorded for a TAB event is exactly its dedupe key. -/
lemma tRow_url (today : String) (ev : TEv) : (tRow today ev).url = dedupe_key ev := by
  by_cases h : ev.official_url = "" <;>
    simp [tRow, save_row, tabSaveDict, dedupe_key, h]

/-- C2: for every event processed for deduplication, a non-empty
`official_url` is the dedupe key even when `name` and `start` are present;
an empty `official_url` yields the synthesized key `name ++ "_" ++ start`,
so two unlinkable events sharing both fields collide on the same key; and
a Walker+ event that reaches the dedupe check carries its JSON-LD `url` as
both its canonical `official_url` and its recorded key (events with an
empty `url` are skipped before the check, line 340). -/
theorem claim_C2 :
    (∀ ev : TEv, ev.official_url ≠ "" → dedupe_key ev = ev.official_url)
    ∧ (∀ ev : TEv, ev.official_url = "" → dedupe_key ev = ev.name ++ "_" ++ ev.start)
    ∧ (∀ a b : TEv, a.official_url = "" → b.official_url = "" →
        a.name = b.name → a.start = b.start → dedupe_key a = dedupe_key b)
    ∧ (∀ today ev, (tRow today ev).url = dedupe_key ev)
    ∧ (∀ today (ev : WEv), (walkerCanonical ev).official_url = ev.url
        ∧ (wRow today ev).url = ev.url) := by
  refine ⟨?_, ?_, ?_, ?_, ?_⟩
  · intro ev h
    simp [dedupe_key, h]
  · intro ev h
    simp [dedupe_key, h]
  · intro a b ha hb hn hs
    simp [dedupe_key, ha, hb, hn, hs]
  · intro today ev
    exact tRow_url today ev
  · intro today ev
    exact ⟨rfl, rfl⟩

/-- Witness for C2 at concrete events. -/
theorem claim_C2_witness :
    dedupe_key { official_url := "http://x.example" } = "http://x.example"
    ∧ dedupe_key { name := "n", start := "2024-05-01" } = "n" ++ "_" ++ "2024-05-01" := by
  refine ⟨claim_C2.1 _ (by decide), ?_⟩
  exact claim_C2.2.1 { name := "n", start := "2024-05-01" } rfl

/-- C9: a ledger-read failure inside the existence check yields `false`
(the event is treated as new — fail open), and a ledger-append failure
leaves the sheet unchanged; both adapters are total Lean functions, which
is the shallow-embedding statement that neither failure propagates an
exception out of the adapter or aborts the run. -/
theorem claim_C9 :
    (∀ url e, already_sent url (Except.error e) = false)
    ∧ (∀ sheet ev today e, save_event sheet ev today (Except.error e) = sheet) := by
  constructor
  · intro url e
    by_cases h : url = "" <;> simp [already_sent, h]
  · intro sheet ev today e
    rfl

/-- C3 counterexample: the period written to the ledger row for two ISO
dates uses U+FF5E FULLWIDTH TILDE, not the claimed U+301C wave dash `〜`;
and the message date line truncates a `startDate` that does NOT look like
an ISO date to its first 10 characters all the same, instead of rendering
the start value verbatim as claimed. -/
theorem claim_C3_counterexample :
    (save_row "2024-06-01" { start := "2024-05-01", end_ := "2024-05-31" }).period ≠
      "2024-05-01 〜 2024-05-31"
    ∧ msg_date_line { startDate := "May 1, 2024!!" } ≠ "May 1, 2024!!" := by
  decide

/-- C3 (amended): with both dates set as 10-character `YYYY-MM-DD` strings,
both the ledger period and the message date line render
`"<start> ～ <end>"`, with the FULLWIDTH TILDE `～` (U+FF5E) surrounded by
single spaces as separator; with only start set, the ledger period is the
start value truncated to 10 characters when it begins like an ISO date
(`re.match` with the Unicode digit class, so full-width ISO strings are
truncated too) and verbatim otherwise, while the message date line uses
the `start` field verbatim and truncates the `startDate` field to its
first 10 characters unconditionally. -/
theorem claim_C3_amended (today s e : String)
    (hs : isIso10 s = true) (he : isIso10 e = true) :
    ((save_row today { start := s, end_ := e }).period = s ++ " ～ " ++ e
      ∧ msg_date_line { start := s, end_ := e } = s ++ " ～ " ++ e)
    ∧ (∀ s', (save_row today { start := s' }).period = norm s')
    ∧ (∀ s', isIsoPrefix s' = true → norm s' = takeChars 10 s')
    ∧ (∀ s', isIsoPrefix s' = false → s' ≠ "" → norm s' = s')
    ∧ (∀ s', s' ≠ "" → msg_date_line { start := s' } = s')
    ∧ (∀ s', msg_date_line { startDate := s' } = takeChars 10 s') := by
  have hlen : ∀ t : String, isIso10 t = true → t ≠ "" ∧ norm t = t := by
    intro t ht
    simp only [isIso10, Bool.and_eq_true, beq_iff_eq] at ht
    obtain ⟨hp, hl⟩ := ht
    have hne : t ≠ "" := by
      intro h
      subst h
      simp at hl
    refine ⟨hne, ?_⟩
    rw [norm, if_neg hne, if_pos hp, takeChars, ← hl, List.take_length]
  obtain ⟨hsne, hsn⟩ := hlen s hs
  obtain ⟨hene, hen⟩ := hlen e he
  refine ⟨⟨?_, ?_⟩, ?_, ?_, ?_, ?_, ?_⟩
  · simp [save_row, save_period, save_start, save_end, bne_iff_ne, hsne, hene, hsn, hen]
  · simp [msg_date_line, bne_iff_ne, hsne, hene]
  · intro s'
    by_cases h : s' = "" <;>
      simp [save_row, save_period, save_start, save_end, bne_iff_ne, h, norm]
  · intro s' h
    by_cases hz : s' = ""
    · subst hz
      simp [isIsoPrefix] at h
    · rw [norm, if_neg hz, if_pos h]
  · intro s' h hz
    rw [norm, if_neg hz, if_neg (by rw [h]; exact Bool.false_ne_true)]
  · intro s' h
    simp [msg_date_line, bne_iff_ne, h]
  · intro s'
    by_cases h : s' = "" <;> simp [msg_date_line, bne_iff_ne, h, takeChars]

/-- Witness for C3 (amended) at concrete ISO dates, including a
full-width ISO-prefixed value that the code truncates. -/
theorem claim_C3_amended_witness :
    isIso10 "2024-05-01" = true ∧ isIso10 "2024-05-31" = true ∧
    (save_row "2024-06-01" { start := "2024-05-01", end_ := "2024-05-31" }).period =
      "2024-05-01" ++ " ～ " ++ "2024-05-31" ∧
    isIsoPrefix "２０２４-０５-０１です" = true ∧
    norm "２０２４-０５-０１です" = takeChars 10 "２０２４-０５-０１です" := by
  refine ⟨by decide, by decide, ?_, by decide, ?_⟩
  · exact (claim_C3_amended "2024-06-01" "2024-05-01" "2024-05-31"
      (by decide) (by decide)).1.1
  · exact (claim_C3_amended "2024-06-01" "2024-05-01" "2024-05-31"
      (by decide) (by decide)).2.2.1 "２０２４-０５-０１です" (by decide)

lemma pDigits_no_digit {cs : List Char} (h : ∀ c ∈ cs, pyIsDigit c = false) (n : Nat) :
    pDigits (n + 1) cs = none := by
  cases cs with
  | nil => rfl
  | cons c rest => simp [pDigits, h c (List.mem_cons_self c rest)]

lemma parseYMD_no_digit {cs : List Char} (h : ∀ c ∈ cs, pyIsDigit c = false) :
    parseYMD cs = none := by
  have h4 : pDigits 4 cs = none := pDigits_no_digit h 3
  unfold parseYMD
  rw [h4]

lemma matchP1_no_digit {cs : List Char} (h : ∀ c ∈ cs, pyIsDigit c = false) :
    matchP1 cs = none := by
  unfold matchP1
  rw [parseYMD_no_digit h]

lemma matchP2_no_digit {cs : List Char} (h : ∀ c ∈ cs, pyIsDigit c = false) :
    matchP2 cs = none := by
  unfold matchP2
  rw [parseYMD_no_digit h]

lemma matchP3_no_digit {cs : List Char} (h : ∀ c ∈ cs, pyIsDigit c = false) :
    matchP3 cs = none := by
  unfold matchP3
  rw [parseYMD_no_digit h]

lemma parseISO_no_digit {cs : List Char} (h : ∀ c ∈ cs, pyIsDigit c = false) :
    parseISO cs = none := by
  unfold parseISO
  split
  · rename_i c0 c1 c2 c3 c5 c6 c8 c9 rest
    have h0 : pyIsDigit c0 = false := h c0 (by simp)
    simp [h0]
  · rfl

lemma reSearch_no_digit {α : Type} (m : List Char → Option α)
    (hm : ∀ cs, (∀ c ∈ cs, pyIsDigit c = false) → m cs = none) :
    ∀ (cs : List Char), (∀ c ∈ cs, pyIsDigit c = false) → reSearch m cs = none := by
  intro cs
  induction cs with
  | nil =>
    intro h
    simpa [reSearch] using hm [] (by simp)
  | cons c rest ih =>
    intro h
    rw [reSearch, hm _ h]
    exact ih (fun x hx => h x (List.mem_cons_of_mem _ hx))

/-- C4: date-range parsing tries its patterns strict-to-loose with first
match winning, zero-padding every component: a range-dash text yields both
dates; a yearless end date inherits the start year; a single date is
returned as both ends; an ISO substring is returned as both ends; the
strict 年月日 pattern beats a textually earlier ISO substring; full-width
digits (Python's `\d` is the Unicode digit class, `int()` converts them)
parse and zero-pad like ASCII ones, with a full-width ISO match returned
verbatim; and a text with no date token (no Unicode decimal digit at all)
yields two empty strings. -/
theorem claim_C4 :
    extract_date_range_from_text "2024年5月1日〜2024年5月31日" = ("2024-05-01", "2024-05-31")
    ∧ extract_date_range_from_text "2024年5月1日〜5月31日" = ("2024-05-01", "2024-05-31")
    ∧ extract_date_range_from_text "2024年5月1日" = ("2024-05-01", "2024-05-01")
    ∧ extract_date_range_from_text "会期 2024-05-01 から" = ("2024-05-01", "2024-05-01")
    ∧ extract_date_range_from_text "2024年05月01日" = ("2024-05-01", "2024-05-01")
    ∧ extract_date_range_from_text "2023-01-02 と 2024年5月1日" = ("2024-05-01", "2024-05-01")
    ∧ extract_date_range_from_text "２０２４年５月１日" = ("2024-05-01", "2024-05-01")
    ∧ extract_date_range_from_text "会期：２０２４年５月１日〜５月３１日" =
        ("2024-05-01", "2024-05-31")
    ∧ extract_date_range_from_text "２０２４-０５-０１です" =
        ("２０２４-０５-０１", "２０２４-０５-０１")
    ∧ (∀ text : String, (∀ c ∈ text.data, pyIsDigit c = false) →
        extract_date_range_from_text text = ("", "")) := by
  refine ⟨by decide, by decide, by decide, by decide, by decide, by decide,
    by decide, by decide, by decide, ?_⟩
  intro text h
  unfold extract_date_range_from_text
  by_cases ht : text = ""
  · simp [ht]
  · rw [if_neg ht]
    rw [reSearch_no_digit _ (fun cs hcs => matchP1_no_digit hcs) _ h,
      reSearch_no_digit _ (fun cs hcs => matchP2_no_digit hcs) _ h,
      reSearch_no_digit _ (fun cs hcs => matchP3_no_digit hcs) _ h,
      reSearch_no_digit _ (fun cs hcs => parseISO_no_digit hcs) _ h]

/-- Witness for C4's universal clause at a digit-free text. -/
theorem claim_C4_witness :
    (∀ c ∈ ("イベント情報ページ" : String).data, pyIsDigit c = false)
    ∧ extract_date_range_from_text "イベント情報ページ" = ("", "") := by
  refine ⟨by decide, ?_⟩
  exact claim_C4.2.2.2.2.2.2.2.2.2 _ (by decide)

/-- C5 counterexample: the venue `"東京横浜"` contains `"横浜"`, yet the
classifier returns 東京, because the keyword lists are scanned in
declaration order and the 東京 list is checked first — so "every venue
string containing 横浜 resolves to 神奈川" is false as stated. -/
theorem claim_C5_counterexample :
    pyIn "横浜" "東京横浜" = true
    ∧ map_venue_to_prefecture "東京横浜" "" = some "東京" := by
  constructor
  · decide
  · decide

/-- C5 (amended): a venue containing 横浜 resolves to 神奈川 regardless of
the URL hint, provided no 東京-list keyword also occurs in the venue (the
keyword lists are scanned in declaration order, 東京 first); an empty
venue with a URL containing `"saitama"` resolves to 埼玉 provided no
神奈川- or 千葉-token occurs earlier in the chain; with both inputs empty
the classifier is unresolved (`none`), and the caller then assigns the
default region 東京. -/
theorem claim_C5_amended :
    (∀ venue url, pyIn "横浜" venue = true →
        (∀ k ∈ TOKYO_KEYS, pyIn (lowerStr k) (lowerStr venue) = false) →
        map_venue_to_prefecture venue url = some "神奈川")
    ∧ (∀ url, pyIn "saitama" (lowerStr url) = true →
        (∀ k ∈ URL_KEYS_KANAGAWA ++ URL_KEYS_CHIBA, pyIn k (lowerStr url) = false) →
        map_venue_to_prefecture "" url = some "埼玉")
    ∧ map_venue_to_prefecture "" "" = none
    ∧ (∀ ev : TEv, ev.venue = "" → ev.official_url = "" → tabPref ev = "東京") := by
  have h00 : map_venue_to_prefecture "" "" = none := by decide
  refine ⟨?_, ?_, h00, ?_⟩
  · intro venue url hv hT
    have hvne : (venue != "") = true :=
      bne_iff_ne.mpr (ne_empty_of_pyIn (by decide) hv)
    have hTany : (TOKYO_KEYS.any (fun k => pyIn (lowerStr k) (lowerStr venue))) = false := by
      rw [List.any_eq_false]
      intro k hk
      simp [hT k hk]
    have hyk : pyIn (lowerStr "横浜") (lowerStr venue) = true := by
      have hl : lowerStr "横浜" = "横浜" := by decide
      rw [hl]
      exact pyIn_lowerStr (by decide) hv
    have hKany : (KANAGAWA_KEYS.any (fun k => pyIn (lowerStr k) (lowerStr venue))) = true := by
      rw [List.any_eq_true]
      exact ⟨"横浜", by decide, hyk⟩
    rw [map_venue_to_prefecture, if_pos hvne, PREF_KEYWORD_MAP]
    rw [List.findSome?_cons]
    simp only [hTany, Bool.false_eq_true, if_false]
    rw [List.findSome?_cons]
    simp only [hKany, if_true]
  · intro url hs hKC
    have hune : (url != "") = true := by
      rw [bne_iff_ne]
      intro h
      rw [h] at hs
      exact absurd hs (by decide)
    have hK : (URL_KEYS_KANAGAWA.any (fun x => pyIn x (lowerStr url))) = false := by
      rw [List.any_eq_false]
      intro k hk
      simp [hKC k (List.mem_append_left _ hk)]
    have hC : (URL_KEYS_CHIBA.any (fun x => pyIn x (lowerStr url))) = false := by
      rw [List.any_eq_false]
      intro k hk
      simp [hKC k (List.mem_append_right _ hk)]
    have hS : (URL_KEYS_SAITAMA.any (fun x => pyIn x (lowerStr url))) = true := by
      rw [List.any_eq_true]
      exact ⟨"saitama", by decide, hs⟩
    rw [map_venue_to_prefecture]
    simp only [bne_self_eq_false, Bool.false_eq_true, if_false, hune, if_true]
    rw [hK, hC, hS]
    simp
  · intro ev hv hu
    rw [tabPref, hv, hu, h00]
    rfl

/-- Witness for C5 (amended) at concrete inputs. -/
theorem claim_C5_amended_witness :
    pyIn "横浜" "横浜そごう美術館" = true
    ∧ map_venue_to_prefecture "横浜そごう美術館" "https://tokyo.example" = some "神奈川"
    ∧ map_venue_to_prefecture "" "https://saitama-museum.jp" = some "埼玉"
    ∧ tabPref { venue := "", official_url := "" } = "東京" := by
  refine ⟨by decide, ?_, ?_, ?_⟩
  · exact claim_C5_amended.1 _ "https://tokyo.example" (by decide) (by decide)
  · exact claim_C5_amended.2.1 _ (by decide) (by decide)
  · exact claim_C5_amended.2.2.2 _ rfl rfl

lemma firstSurvivor_hint (hint : String) :
    ∀ l : List (Bool × String), firstSurvivor hint l = firstSurvivor "" l := by
  intro l
  induction l with
  | nil => rfl
  | cons c rest ih =>
    obtain ⟨bad, href⟩ := c
    cases bad <;> simp [firstSurvivor, ih]

lemma firstSurvivor_all_bad :
    ∀ (l : List (Bool × String)), (∀ c ∈ l, c.1 = true) →
      ∀ hint, firstSurvivor hint l = none := by
  intro l
  induction l with
  | nil => intro _ hint; rfl
  | cons c rest ih =>
    intro h hint
    obtain ⟨bad, href⟩ := c
    have hb : bad = true := h (bad, href) (by simp)
    subst hb
    simp only [firstSurvivor, Bool.not_true, Bool.false_eq_true, if_false]
    exact ih (fun x hx => h x (List.mem_cons_of_mem _ hx)) hint

lemma firstSurvivor_skip_bad :
    ∀ (l₁ : List (Bool × String)) (c : Bool × String) (l₂ : List (Bool × String))
      (hint : String), (∀ x ∈ l₁, x.1 = true) → c.1 = false →
      firstSurvivor hint (l₁ ++ c :: l₂) = some c.2 := by
  intro l₁
  induction l₁ with
  | nil =>
    intro c l₂ hint _ hc
    obtain ⟨bad, href⟩ := c
    simp only at hc
    subst hc
    simp [firstSurvivor]
  | cons a rest ih =>
    intro c l₂ hint h1 hc
    obtain ⟨bad, href⟩ := a
    have hb : bad = true := h1 (bad, href) (by simp)
    subst hb
    simp only [List.cons_append, firstSurvivor, Bool.not_true, Bool.false_eq_true, if_false]
    exact ih c l₂ hint (fun x hx => h1 x (List.mem_cons_of_mem _ hx)) hc

lemma fallbackCandidates_mem :
    ∀ (hrefs : List String) (b : Bool) (href : String),
      (b, href) ∈ fallbackCandidates hrefs →
      pyStartsWith href "http" = true
      ∧ pyIn "tokyoartbeat.com" (lowerStr (netlocOf href)) = false
      ∧ b = EXCLUDE_DOMAINS.any (fun bad => pyIn bad (lowerStr (netlocOf href))) := by
  intro hrefs b href hmem
  rw [fallbackCandidates, List.mem_filterMap] at hmem
  obtain ⟨h0, -, hf⟩ := hmem
  by_cases h1 : pyStartsWith (trimStr h0) "http"
  · by_cases h2 : pyIn "tokyoartbeat.com" (lowerStr (netlocOf (trimStr h0)))
    · simp [h1, h2] at hf
    · simp only [h1, Bool.not_true, Bool.false_eq_true, if_false,
        h2, Option.some_inj, Prod.mk.injEq] at hf
      obtain ⟨hb, hh⟩ := hf
      subst hh
      refine ⟨h1, ?_, hb.symm⟩
      simpa using h2
  · simp [h1] at hf

/-- C7 counterexample: two surviving (non-block-listed) candidates, of
which only the SECOND contains the venue hint; the code returns the first
survivor all the same — both branches of the hint conditional return the
same href, so the claimed venue-hint preference does not exist. -/
theorem claim_C7_counterexample :
    extract_official_url_fallback
        ["http://first.example/", "http://venuehint.example/"] "venuehint" =
      "http://first.example/"
    ∧ fallbackCandidates ["http://first.example/", "http://venuehint.example/"] =
        [(false, "http://first.example/"), (false, "http://venuehint.example/")]
    ∧ pyIn (lowerStr "venuehint") (lowerStr "http://first.example/") = false
    ∧ pyIn (lowerStr "venuehint") (lowerStr "http://venuehint.example/") = true := by
  refine ⟨by decide, by decide, by decide, by decide⟩

/-- C7 (amended): the anchor fallback drops non-`http` hrefs and the
source's own domain and tags survivors against the block-list; it returns
the first non-block-listed survivor — the venue hint has no effect on the
result; when every candidate is block-listed it returns the first
candidate; and with no candidates it returns the empty string. -/
theorem claim_C7_amended :
    (∀ hrefs hint, extract_official_url_fallback hrefs hint =
        extract_official_url_fallback hrefs "")
    ∧ (∀ hrefs hint l₁ c l₂, fallbackCandidates hrefs = l₁ ++ c :: l₂ →
        (∀ x ∈ l₁, x.1 = true) → c.1 = false →
        extract_official_url_fallback hrefs hint = c.2)
    ∧ (∀ hrefs hint c cs, fallbackCandidates hrefs = c :: cs →
        (∀ x ∈ fallbackCandidates hrefs, x.1 = true) →
        extract_official_url_fallback hrefs hint = c.2)
    ∧ (∀ hrefs hint, fallbackCandidates hrefs = [] →
        extract_official_url_fallback hrefs hint = "")
    ∧ (∀ hrefs (b : Bool) href, (b, href) ∈ fallbackCandidates hrefs →
        pyStartsWith href "http" = true
        ∧ pyIn "tokyoartbeat.com" (lowerStr (netlocOf href)) = false
        ∧ b = EXCLUDE_DOMAINS.any (fun bad => pyIn bad (lowerStr (netlocOf href)))) := by
  refine ⟨?_, ?_, ?_, ?_, fallbackCandidates_mem⟩
  · intro hrefs hint
    simp only [extract_official_url_fallback]
    rw [firstSurvivor_hint]
  · intro hrefs hint l₁ c l₂ heq h1 hc
    simp only [extract_official_url_fallback]
    rw [heq, firstSurvivor_skip_bad l₁ c l₂ hint h1 hc]
  · intro hrefs hint c cs heq hall
    simp only [extract_official_url_fallback]
    rw [heq, firstSurvivor_all_bad (c :: cs) (by rw [← heq]; exact hall) hint]
  · intro hrefs hint heq
    simp only [extract_official_url_fallback]
    rw [heq]
    rfl

/-- Witness for C7 (amended) at concrete anchor lists. -/
theorem claim_C7_amended_witness :
    extract_official_url_fallback ["http://twitter.com/x", "http://ok.example/"] "hint" =
      "http://ok.example/"
    ∧ extract_official_url_fallback ["http://twitter.com/a", "http://facebook.com/b"] "" =
      "http://twitter.com/a" := by
  constructor
  · exact claim_C7_amended.2.1 _ "hint" [(true, "http://twitter.com/x")]
      (false, "http://ok.example/") [] (by decide) (by decide) (by decide)
  · exact claim_C7_amended.2.2.1 _ "" (true, "http://twitter.com/a")
      [(true, "http://facebook.com/b")] (by decide) (by decide)

lemma chunk_nil : chunk [] = [] := rfl

lemma chunk_cons {cs : List Char} (h : cs ≠ []) :
    chunk cs = String.mk (cs.take CHUNK_SIZE) :: chunk (cs.drop CHUNK_SIZE) := by
  have hlen : 0 < cs.length := List.length_pos.mpr h
  have hcount : (cs.length + CHUNK_SIZE - 1) / CHUNK_SIZE =
      ((cs.drop CHUNK_SIZE).length + CHUNK_SIZE - 1) / CHUNK_SIZE + 1 := by
    rw [List.length_drop]
    simp only [CHUNK_SIZE]
    omega
  rw [chunk, hcount, List.range_succ_eq_map]
  simp only [List.map_cons, List.map_map, Function.comp, Nat.zero_mul, List.drop_zero]
  refine congrArg (String.mk (cs.take CHUNK_SIZE) :: ·) ?_
  rw [chunk]
  apply List.map_congr_left
  intro k _
  have harith : Nat.succ k * CHUNK_SIZE = CHUNK_SIZE + k * CHUNK_SIZE := by
    simp [Nat.succ_mul, Nat.add_comm]
  simp only [Function.comp_apply, List.drop_drop, harith]

lemma chunk_ne_nil {cs : List Char} (h : chunk cs = []) : cs = [] := by
  by_cases hc : cs = []
  · exact hc
  · rw [chunk_cons hc] at h
    cases h

lemma chunk_flatten (cs : List Char) : ((chunk cs).map String.data).flatten = cs := by
  by_cases h : cs = []
  · subst h
    rfl
  · rw [chunk_cons h]
    simp only [List.map_cons, List.flatten_cons]
    rw [chunk_flatten (cs.drop CHUNK_SIZE)]
    exact List.take_append_drop _ _
termination_by cs.length
decreasing_by
  have hp : 0 < cs.length := List.length_pos.mpr h
  simp [List.length_drop, CHUNK_SIZE]
  omega

lemma chunk_length_le (cs : List Char) : ∀ s ∈ chunk cs, s.data.length ≤ CHUNK_SIZE := by
  by_cases h : cs = []
  · subst h
    intro s hs
    cases hs
  · rw [chunk_cons h]
    intro s hs
    rcases List.mem_cons.mp hs with h1 | h2
    · subst h1
      simpa using List.length_take_le _ _
    · exact chunk_length_le (cs.drop CHUNK_SIZE) s h2
termination_by cs.length
decreasing_by
  have hp : 0 < cs.length := List.length_pos.mpr h
  simp [List.length_drop, CHUNK_SIZE]
  omega

lemma chunk_dropLast (cs : List Char) :
    ∀ s ∈ (chunk cs).dropLast, s.data.length = CHUNK_SIZE := by
  by_cases h : cs = []
  · subst h
    intro s hs
    cases hs
  · rw [chunk_cons h]
    intro s hs
    cases hrest : chunk (cs.drop CHUNK_SIZE) with
    | nil =>
      rw [hrest] at hs
      cases hs
    | cons a l =>
      rw [hrest] at hs
      rw [List.dropLast_cons_of_ne_nil (by simp)] at hs
      rcases List.mem_cons.mp hs with h1 | h2
      · subst h1
        have hd : cs.drop CHUNK_SIZE ≠ [] := by
          intro hd
          rw [hd] at hrest
          cases hrest
      -- the tail being nonempty forces more than one chunk's worth of text
        have hlen : CHUNK_SIZE < cs.length := by
          by_contra hle
          push_neg at hle
          exact hd (List.drop_eq_nil_of_le hle)
        simp only [String.data]
        rw [List.length_take]
        omega
      · rw [← hrest] at h2
        exact chunk_dropLast (cs.drop CHUNK_SIZE) s h2
termination_by cs.length
decreasing_by
  have hp : 0 < cs.length := List.length_pos.mpr h
  simp [List.length_drop, CHUNK_SIZE]
  omega

/-- C6 counterexample: two regions each holding one event; the code sends
one broadcast per bucket — two texts, each far shorter than `CHUNK_SIZE` —
whereas slicing one combined text into `CHUNK_SIZE`-character chunks (the
claim, embodied by `specCombinedOutput`) would produce a single chunk
here, and in general every chunk before the last would have exactly
`CHUNK_SIZE` characters. -/
theorem claim_C6_counterexample :
    (runPipeline "2024-06-01" wfixTwo [] []).broadcasts.length = 2
    ∧ (∀ t ∈ (runPipeline "2024-06-01" wfixTwo [] []).broadcasts,
        t.data.length < CHUNK_SIZE)
    ∧ (runPipeline "2024-06-01" wfixTwo [] []).broadcasts ≠
        specCombinedOutput "\n\n" (runPipeline "2024-06-01" wfixTwo [] []).buckets := by
  refine ⟨by decide, by decide, by decide⟩

/-- C6 (amended): buckets holding nothing beyond their banner line
contribute nothing; each remaining bucket is joined with blank-line
separators into its OWN combined text, which is sliced into fixed-size
`CHUNK_SIZE`-character chunks at purely positional boundaries; the
buckets' chunk lists are dispatched in the fixed region order
東京, 神奈川, 千葉, 埼玉 (there is no single cross-region combined text).
Chunking facts: the chunks concatenate back to the sliced text, every
chunk has at most `CHUNK_SIZE` characters, and every chunk before the
last has exactly `CHUNK_SIZE` characters. -/
theorem claim_C6_amended (m : Buckets) :
    outputPhase m =
      bucketOut (m "東京") ++ (bucketOut (m "神奈川") ++ (bucketOut (m "千葉")
        ++ bucketOut (m "埼玉")))
    ∧ (∀ b : List String, b.length ≤ 1 → bucketOut b = [])
    ∧ (∀ b : List String, 1 < b.length →
        bucketOut b = chunk (joinSep "\n\n" b).data)
    ∧ (∀ cs, ((chunk cs).map String.data).flatten = cs)
    ∧ (∀ cs, ∀ s ∈ chunk cs, s.data.length ≤ CHUNK_SIZE)
    ∧ (∀ cs, ∀ s ∈ (chunk cs).dropLast, s.data.length = CHUNK_SIZE) := by
  refine ⟨?_, ?_, ?_, chunk_flatten, chunk_length_le, chunk_dropLast⟩
  · simp [outputPhase, prefOrder]
  · intro b hb
    rw [bucketOut, if_pos hb]
  · intro b hb
    rw [bucketOut, if_neg (by omega)]

/-- Witness for C6 (amended) at a concrete bucket. -/
theorem claim_C6_amended_witness :
    (1 : Nat) < ([banner "東京", "event line"] : List String).length
    ∧ bucketOut [banner "東京", "event line"] =
        chunk (joinSep "\n\n" [banner "東京", "event line"]).data := by
  refine ⟨by decide, ?_⟩
  exact (claim_C6_amended initBuckets).2.2.1 _ (by decide)

/-!
### Pipeline lemmas: the ledger only grows, and a ledger that already
contains every key a pass would process makes that pass a no-op.
-/

lemma mem_col4_ext {sheet ext : List Row} {u : String} (h : u ∈ col4 sheet) :
    u ∈ col4 (sheet ++ ext) := by
  rw [col4_append]
  exact List.mem_append_left _ h

lemma walker_row_url (today : String) (ev : WEv) :
    (save_row today (walkerSaveDict ev)).url = ev.url := rfl

lemma tab_row_url (today : String) (ev : TEv) :
    (save_row today (tabSaveDict ev)).url = dedupe_key ev := tRow_url today ev

lemma processW_sheet_ext (today : String) :
    ∀ (evs : List WEv) (sheet : List Row) (cnt : Nat),
      ∃ ext, (processW today evs sheet cnt).sheet = sheet ++ ext := by
  intro evs
  induction evs with
  | nil =>
    intro sheet cnt
    exact ⟨[], by simp [processW]⟩
  | cons e rest ih =>
    intro sheet cnt
    by_cases h1 : e.url = ""
    · simpa [processW, h1] using ih sheet cnt
    · cases h2 : already_sent e.url (Except.ok (col4 sheet)) with
      | true => simpa [processW, h1, h2] using ih sheet cnt
      | false =>
        by_cases h3 : cnt + 1 ≥ PER_PREF_LIMIT
        · exact ⟨[save_row today (walkerSaveDict e)],
            by simp [processW, h1, h2, h3, save_event]⟩
        · obtain ⟨ext, hext⟩ := ih (sheet ++ [save_row today (walkerSaveDict e)]) (cnt + 1)
          refine ⟨[save_row today (walkerSaveDict e)] ++ ext, ?_⟩
          simp only [processW, h1, h2, h3, save_event, if_neg, if_false,
            Bool.false_eq_true]
          rw [← List.append_assoc]
          exact hext

lemma processT_sheet_ext (today : String) :
    ∀ (tevs : List TEv) (sheet : List Row) (m : Buckets) (cnt : Nat),
      ∃ ext, (processT today tevs sheet m cnt).sheet = sheet ++ ext := by
  intro tevs
  induction tevs with
  | nil =>
    intro sheet m cnt
    exact ⟨[], by simp [processT]⟩
  | cons e rest ih =>
    intro sheet m cnt
    by_cases h1 : dedupe_key e = ""
    · simpa [processT, h1] using ih sheet m cnt
    · cases h2 : already_sent (dedupe_key e) (Except.ok (col4 sheet)) with
      | true => simpa [processT, h1, h2] using ih sheet m cnt
      | false =>
        by_cases h3 : cnt + 1 ≥ 10
        · exact ⟨[save_row today (tabSaveDict e)],
            by simp [processT, h1, h2, h3, save_event]⟩
        · obtain ⟨ext, hext⟩ := ih (sheet ++ [save_row today (tabSaveDict e)])
            (bucketAppend m (tabPref e) (tMsg e)) (cnt + 1)
          refine ⟨[save_row today (tabSaveDict e)] ++ ext, ?_⟩
          simp only [processT, h1, h2, h3, save_event, if_neg, if_false,
            Bool.false_eq_true]
          rw [← List.append_assoc]
          exact hext

lemma walkerPhase_sheet_ext (today : String) (f : String → List WEv) :
    ∀ (l : List String) (sheet : List Row) (m : Buckets),
      ∃ ext, (walkerPhase today f l sheet m).sheet = sheet ++ ext := by
  intro l
  induction l with
  | nil =>
    intro sheet m
    exact ⟨[], by simp [walkerPhase]⟩
  | cons pref ps ih =>
    intro sheet m
    obtain ⟨e1, he1⟩ := processW_sheet_ext today (f pref) sheet 0
    obtain ⟨e2, he2⟩ := ih (processW today (f pref) sheet 0).sheet
      (fun p => if p = pref then m pref ++ (processW today (f pref) sheet 0).sel.map wMsg
        else m p)
    refine ⟨e1 ++ e2, ?_⟩
    simp only [walkerPhase]
    rw [he2, he1, List.append_assoc]

lemma processW_skip_all (today today2 : String) :
    ∀ (evs : List WEv) (sheet1 sheet2 : List Row) (cnt1 cnt2 : Nat),
      (∀ u ∈ col4 (processW today evs sheet1 cnt1).sheet, u ∈ col4 sheet2) →
      (processW today evs sheet1 cnt1).rem = [] →
      processW today2 evs sheet2 cnt2 = ⟨sheet2, [], [], []⟩ := by
  intro evs
  induction evs with
  | nil =>
    intro sheet1 sheet2 cnt1 cnt2 _ _
    simp [processW]
  | cons e rest ih =>
    intro sheet1 sheet2 cnt1 cnt2 hsub hrem
    by_cases h1 : e.url = ""
    · simp only [processW, h1, if_pos] at hsub hrem ⊢
      exact ih sheet1 sheet2 cnt1 cnt2 hsub hrem
    · cases h2 : already_sent e.url (Except.ok (col4 sheet1)) with
      | true =>
        simp only [processW, h1, h2, if_pos, if_neg, if_true, if_false] at hsub hrem
        have hmem1 : e.url ∈ col4 sheet1 := by
          simpa [already_sent, h1] using h2
        have hmem2 : e.url ∈ col4 sheet2 := by
          obtain ⟨ext, hext⟩ := processW_sheet_ext today rest sheet1 cnt1
          exact hsub e.url (by rw [hext]; exact mem_col4_ext hmem1)
        have haz2 : already_sent e.url (Except.ok (col4 sheet2)) = true := by
          simp [already_sent, h1, hmem2]
        simp only [processW, h1, haz2, if_true, if_false, if_neg, if_pos]
        exact ih sheet1 sheet2 cnt1 cnt2 hsub hrem
      | false =>
        by_cases h3 : cnt1 + 1 ≥ PER_PREF_LIMIT
        · simp only [processW, h1, h2, h3, save_event, if_pos, if_neg, if_true,
            if_false, Bool.false_eq_true] at hsub hrem
          subst hrem
          have hmem2 : e.url ∈ col4 sheet2 := by
            refine hsub e.url ?_
            rw [col4_append]
            exact List.mem_append_right _ (by simp [col4, walker_row_url])
          have haz2 : already_sent e.url (Except.ok (col4 sheet2)) = true := by
            simp [already_sent, h1, hmem2]
          simp [processW, h1, haz2]
        · simp only [processW, h1, h2, h3, save_event, if_pos, if_neg, if_true,
            if_false, Bool.false_eq_true] at hsub hrem
          have hmem2 : e.url ∈ col4 sheet2 := by
            obtain ⟨ext, hext⟩ := processW_sheet_ext today rest
              (sheet1 ++ [save_row today (walkerSaveDict e)]) (cnt1 + 1)
            refine hsub e.url ?_
            rw [hext]
            refine mem_col4_ext ?_
            rw [col4_append]
            exact List.mem_append_right _ (by simp [col4, walker_row_url])
          have haz2 : already_sent e.url (Except.ok (col4 sheet2)) = true := by
            simp [already_sent, h1, hmem2]
          simp only [processW, h1, haz2, if_true, if_false, if_neg, if_pos]
          exact ih (sheet1 ++ [save_row today (walkerSaveDict e)]) sheet2
            (cnt1 + 1) cnt2 hsub hrem

lemma processT_skip_all (today today2 : String) :
    ∀ (tevs : List TEv) (sheet1 sheet2 : List Row) (m1 m2 : Buckets) (cnt1 cnt2 : Nat),
      (∀ u ∈ col4 (processT today tevs sheet1 m1 cnt1).sheet, u ∈ col4 sheet2) →
      (processT today tevs sheet1 m1 cnt1).rem = [] →
      processT today2 tevs sheet2 m2 cnt2 = ⟨sheet2, m2, [], [], []⟩ := by
  intro tevs
  induction tevs with
  | nil =>
    intro sheet1 sheet2 m1 m2 cnt1 cnt2 _ _
    simp [processT]
  | cons e rest ih =>
    intro sheet1 sheet2 m1 m2 cnt1 cnt2 hsub hrem
    by_cases h1 : dedupe_key e = ""
    · simp only [processT, h1, if_pos] at hsub hrem ⊢
      exact ih sheet1 sheet2 m1 m2 cnt1 cnt2 hsub hrem
    · cases h2 : already_sent (dedupe_key e) (Except.ok (col4 sheet1)) with
      | true =>
        simp only [processT, h1, h2, if_pos, if_neg, if_true, if_false] at hsub hrem
        have hmem1 : dedupe_key e ∈ col4 sheet1 := by
          simpa [already_sent, h1] using h2
        have hmem2 : dedupe_key e ∈ col4 sheet2 := by
          obtain ⟨ext, hext⟩ := processT_sheet_ext today rest sheet1 m1 cnt1
          exact hsub _ (by rw [hext]; exact mem_col4_ext hmem1)
        have haz2 : already_sent (dedupe_key e) (Except.ok (col4 sheet2)) = true := by
          simp [already_sent, h1, hmem2]
        simp only [processT, h1, haz2, if_true, if_false, if_neg, if_pos]
        exact ih sheet1 sheet2 m1 m2 cnt1 cnt2 hsub hrem
      | false =>
        by_cases h3 : cnt1 + 1 ≥ 10
        · simp only [processT, h1, h2, h3, save_event, if_pos, if_neg, if_true,
            if_false, Bool.false_eq_true] at hsub hrem
          subst hrem
          have hmem2 : dedupe_key e ∈ col4 sheet2 := by
            refine hsub _ ?_
            rw [col4_append]
            exact List.mem_append_right _ (by simp [col4, tab_row_url])
          have haz2 : already_sent (dedupe_key e) (Except.ok (col4 sheet2)) = true := by
            simp [already_sent, h1, hmem2]
          simp [processT, h1, haz2]
        · simp only [processT, h1, h2, h3, save_event, if_pos, if_neg, if_true,
            if_false, Bool.false_eq_true] at hsub hrem
          have hmem2 : dedupe_key e ∈ col4 sheet2 := by
            obtain ⟨ext, hext⟩ := processT_sheet_ext today rest
              (sheet1 ++ [save_row today (tabSaveDict e)])
              (bucketAppend m1 (tabPref e) (tMsg e)) (cnt1 + 1)
            refine hsub _ ?_
            rw [hext]
            refine mem_col4_ext ?_
            rw [col4_append]
            exact List.mem_append_right _ (by simp [col4, tab_row_url])
          have haz2 : already_sent (dedupe_key e) (Except.ok (col4 sheet2)) = true := by
            simp [already_sent, h1, hmem2]
          simp only [processT, h1, haz2, if_true, if_false, if_neg, if_pos]
          exact ih (sheet1 ++ [save_row today (tabSaveDict e)]) sheet2
            (bucketAppend m1 (tabPref e) (tMsg e)) m2 (cnt1 + 1) cnt2 hsub hrem

lemma walkerPhase_skip_all (today today2 : String) (f : String → List WEv) :
    ∀ (l : List String) (sheet1 sheet2 : List Row) (m1 m2 : Buckets),
      (∀ u ∈ col4 (walkerPhase today f l sheet1 m1).sheet, u ∈ col4 sheet2) →
      (∀ r ∈ (walkerPhase today f l sheet1 m1).rems, r = []) →
      (walkerPhase today2 f l sheet2 m2).sheet = sheet2
      ∧ ∀ p, (walkerPhase today2 f l sheet2 m2).buckets p = m2 p := by
  intro l
  induction l with
  | nil =>
    intro sheet1 sheet2 m1 m2 _ _
    exact ⟨rfl, fun p => rfl⟩
  | cons pref ps ih =>
    intro sheet1 sheet2 m1 m2 hsub hrems
    simp only [walkerPhase] at hsub hrems
    have hpw := processW_skip_all today today2 (f pref) sheet1 sheet2 0 0
      (fun u hu => hsub u (by
        obtain ⟨ext, hext⟩ := walkerPhase_sheet_ext today f ps
          (processW today (f pref) sheet1 0).sheet
          (fun p => if p = pref
            then m1 pref ++ (processW today (f pref) sheet1 0).sel.map wMsg
            else m1 p)
        rw [hext]
        exact mem_col4_ext hu))
      (hrems _ (List.mem_cons_self _ _))
    have hih := ih (processW today (f pref) sheet1 0).sheet sheet2
      (fun p => if p = pref
        then m1 pref ++ (processW today (f pref) sheet1 0).sel.map wMsg
        else m1 p)
      (fun p => if p = pref
        then m2 pref ++ (List.map wMsg [])
        else m2 p)
      hsub (fun r hr => hrems r (List.mem_cons_of_mem _ hr))
    constructor
    · show (walkerPhase today2 f (pref :: ps) sheet2 m2).sheet = sheet2
      simp only [walkerPhase, hpw]
      exact hih.1
    · intro p
      show (walkerPhase today2 f (pref :: ps) sheet2 m2).buckets p = m2 p
      simp only [walkerPhase, hpw]
      rw [hih.2 p]
      by_cases hp : p = pref
      · subst hp
        simp
      · simp [hp]

lemma outputPhase_congr {m m' : Buckets} (h : ∀ p ∈ prefOrder, m p = m' p) :
    outputPhase m = outputPhase m' := by
  unfold outputPhase
  exact congrArg List.flatten (List.map_congr_left (fun p hp => by rw [h p hp]))

/-- C1 counterexample: eleven fresh events for one region against an empty
ledger; run 1 selects and records only the first ten (the per-region cap
breaks the loop before event 11 is even examined), so run 2, over the
unchanged source and the ledger holding exactly run 1's appended rows,
dispatches event 11 — not zero events. -/
theorem claim_C1_counterexample :
    (runPipeline "2024-06-02" wfix11 []
      (runPipeline "2024-06-01" wfix11 [] []).sheet).broadcasts ≠ [] := by
  decide

/-- C1 (amended): idempotence holds whenever no cap cut a pass short: if
run 1 processed every fetched event (its leftover lists are all empty),
then a second run against the unchanged sources, starting from the ledger
holding exactly the rows run 1 appended, dispatches zero events — every
event selected in run 1 is detected by the run-2 exists-check, whose key
column contains precisely the key under which run 1 recorded it. -/
theorem claim_C1_amended (today today2 : String) (fetchW : String → List WEv)
    (tabEvents : List TEv) (sheet0 : List Row)
    (hW : ∀ r ∈ (runPipeline today fetchW tabEvents sheet0).wRems, r = [])
    (hT : (runPipeline today fetchW tabEvents sheet0).tRem = []) :
    (runPipeline today2 fetchW tabEvents
      (runPipeline today fetchW tabEvents sheet0).sheet).broadcasts = [] := by
  simp only [runPipeline] at hW hT ⊢
  obtain ⟨ext, hext⟩ := processT_sheet_ext today tabEvents
    (walkerPhase today fetchW prefOrder sheet0 initBuckets).sheet
    (walkerPhase today fetchW prefOrder sheet0 initBuckets).buckets 0
  have hsubW : ∀ u ∈ col4 (walkerPhase today fetchW prefOrder sheet0 initBuckets).sheet,
      u ∈ col4 (processT today tabEvents
        (walkerPhase today fetchW prefOrder sheet0 initBuckets).sheet
        (walkerPhase today fetchW prefOrder sheet0 initBuckets).buckets 0).sheet := by
    intro u hu
    rw [hext]
    exact mem_col4_ext hu
  have hwskip := walkerPhase_skip_all today today2 fetchW prefOrder sheet0
    (processT today tabEvents
      (walkerPhase today fetchW prefOrder sheet0 initBuckets).sheet
      (walkerPhase today fetchW prefOrder sheet0 initBuckets).buckets 0).sheet
    initBuckets initBuckets hsubW hW
  have htskip := processT_skip_all today today2 tabEvents
    (walkerPhase today fetchW prefOrder sheet0 initBuckets).sheet
    (walkerPhase today2 fetchW prefOrder
      (processT today tabEvents
        (walkerPhase today fetchW prefOrder sheet0 initBuckets).sheet
        (walkerPhase today fetchW prefOrder sheet0 initBuckets).buckets 0).sheet
      initBuckets).sheet
    (walkerPhase today fetchW prefOrder sheet0 initBuckets).buckets
    (walkerPhase today2 fetchW prefOrder
      (processT today tabEvents
        (walkerPhase today fetchW prefOrder sheet0 initBuckets).sheet
        (walkerPhase today fetchW prefOrder sheet0 initBuckets).buckets 0).sheet
      initBuckets).buckets
    0 0
    (by
      rw [hwskip.1]
      intro u hu
      exact hu)
    hT
  rw [htskip]
  show outputPhase (walkerPhase today2 fetchW prefOrder
      (processT today tabEvents
        (walkerPhase today fetchW prefOrder sheet0 initBuckets).sheet
        (walkerPhase today fetchW prefOrder sheet0 initBuckets).buckets 0).sheet
      initBuckets).buckets = []
  rw [outputPhase_congr (fun p _ => hwskip.2 p)]
  decide

/-- Witness for C1 (amended): one event per source; both passes finish
without hitting a cap, and the second run dispatches nothing. -/
theorem claim_C1_amended_witness :
    (∀ r ∈ (runPipeline "2024-06-01" wfixOne tabFixOne []).wRems, r = [])
    ∧ (runPipeline "2024-06-01" wfixOne tabFixOne []).tRem = []
    ∧ (runPipeline "2024-06-02" wfixOne tabFixOne
        (runPipeline "2024-06-01" wfixOne tabFixOne []).sheet).broadcasts = [] := by
  refine ⟨by decide, by decide, ?_⟩
  exact claim_C1_amended "2024-06-01" "2024-06-02" wfixOne tabFixOne []
    (by decide) (by decide)

/-!
### A pass over all-new events selects exactly the first `PER_PREF_LIMIT`.
-/

lemma processW_allNew (today : String) :
    ∀ (evs : List WEv) (sheet : List Row) (cnt : Nat),
      cnt < PER_PREF_LIMIT →
      (∀ e ∈ evs, e.url ≠ "" ∧ e.url ∉ col4 sheet) →
      (evs.map (fun e => e.url)).Nodup →
      processW today evs sheet cnt =
        ⟨sheet ++ (evs.take (PER_PREF_LIMIT - cnt)).map
            (fun e => save_row today (walkerSaveDict e)),
          evs.take (PER_PREF_LIMIT - cnt),
          evs.drop (PER_PREF_LIMIT - cnt),
          (evs.take (PER_PREF_LIMIT - cnt)).map
            (fun e => Action.append (save_row today (walkerSaveDict e)))⟩ := by
  intro evs
  induction evs with
  | nil =>
    intro sheet cnt _ _ _
    simp [processW]
  | cons e rest ih =>
    intro sheet cnt hcnt hfresh hnd
    have h1 : ¬ e.url = "" := (hfresh e (List.mem_cons_self _ _)).1
    have h2 : already_sent e.url (Except.ok (col4 sheet)) = false := by
      simp [already_sent, h1, (hfresh e (List.mem_cons_self _ _)).2]
    rw [List.map_cons, List.nodup_cons] at hnd
    obtain ⟨hnotin, hndrest⟩ := hnd
    by_cases h3 : cnt + 1 ≥ PER_PREF_LIMIT
    · have htake : PER_PREF_LIMIT - cnt = 1 := by
        simp only [PER_PREF_LIMIT] at *
        omega
      simp [processW, h1, h2, h3, save_event, htake, wRow]
    · have hlt : cnt + 1 < PER_PREF_LIMIT := by omega
      have hfresh' : ∀ e' ∈ rest, e'.url ≠ ""
          ∧ e'.url ∉ col4 (sheet ++ [save_row today (walkerSaveDict e)]) := by
        intro e' he'
        refine ⟨(hfresh e' (List.mem_cons_of_mem _ he')).1, ?_⟩
        rw [col4_append]
        intro hmem
        rcases List.mem_append.mp hmem with hm | hm
        · exact (hfresh e' (List.mem_cons_of_mem _ he')).2 hm
        · simp only [col4, List.map_cons, List.map_nil, walker_row_url,
            List.mem_singleton] at hm
          exact hnotin (hm ▸ List.mem_map_of_mem _ he')
      have hres := ih (sheet ++ [save_row today (walkerSaveDict e)]) (cnt + 1)
        hlt hfresh' hndrest
      have htake : PER_PREF_LIMIT - cnt = (PER_PREF_LIMIT - (cnt + 1)) + 1 := by
        simp only [PER_PREF_LIMIT] at *
        omega
      simp only [processW, h1, h2, h3, save_event, if_neg, if_false,
        Bool.false_eq_true, hres, htake]
      simp [List.take_succ_cons, List.drop_succ_cons, List.append_assoc, wRow]

lemma processW_allNew0 (today : String) (evs : List WEv) (sheet : List Row)
    (hfresh : ∀ e ∈ evs, e.url ≠ "" ∧ e.url ∉ col4 sheet)
    (hnd : (evs.map (fun e => e.url)).Nodup) :
    processW today evs sheet 0 =
      ⟨sheet ++ (evs.take PER_PREF_LIMIT).map
          (fun e => save_row today (walkerSaveDict e)),
        evs.take PER_PREF_LIMIT,
        evs.drop PER_PREF_LIMIT,
        (evs.take PER_PREF_LIMIT).map
          (fun e => Action.append (save_row today (walkerSaveDict e)))⟩ := by
  have h := processW_allNew today evs sheet 0 (by simp [PER_PREF_LIMIT]) hfresh hnd
  simpa using h

lemma walkerPhase_nilAll (today : String) (f : String → List WEv) :
    ∀ (l : List String) (sheet : List Row) (m : Buckets),
      (∀ p ∈ l, f p = []) →
      (walkerPhase today f l sheet m).sheet = sheet
      ∧ (∀ p, (walkerPhase today f l sheet m).buckets p = m p)
      ∧ (walkerPhase today f l sheet m).rems = l.map (fun _ => ([] : List WEv)) := by
  intro l
  induction l with
  | nil =>
    intro sheet m _
    exact ⟨rfl, fun p => rfl, rfl⟩
  | cons q ps ih =>
    intro sheet m hnil
    have hq : f q = [] := hnil q (List.mem_cons_self _ _)
    have hpw : processW today (f q) sheet 0 = ⟨sheet, [], [], []⟩ := by
      rw [hq]
      simp [processW]
    have hih := ih sheet
      (fun p => if p = q then m q ++ List.map wMsg [] else m p)
      (fun p hp => hnil p (List.mem_cons_of_mem _ hp))
    refine ⟨?_, ?_, ?_⟩
    · show (walkerPhase today f (q :: ps) sheet m).sheet = sheet
      simp only [walkerPhase, hpw]
      exact hih.1
    · intro p
      show (walkerPhase today f (q :: ps) sheet m).buckets p = m p
      simp only [walkerPhase, hpw]
      rw [hih.2.1 p]
      by_cases hp : p = q
      · subst hp
        simp
      · simp [hp]
    · show (walkerPhase today f (q :: ps) sheet m).rems = _
      simp only [walkerPhase, hpw, List.map_cons]
      rw [hih.2.2]

lemma walkerPhase_single (today : String) (evs : List WEv) (pref : String) :
    ∀ (l : List String) (sheet : List Row) (m : Buckets),
      l.Nodup → pref ∈ l →
      (∀ e ∈ evs, e.url ≠ "" ∧ e.url ∉ col4 sheet) →
      (evs.map (fun e => e.url)).Nodup →
      (walkerPhase today (fun p => if p = pref then evs else []) l sheet m).sheet =
        sheet ++ (evs.take PER_PREF_LIMIT).map (fun e => save_row today (walkerSaveDict e))
      ∧ (∀ p, (walkerPhase today (fun p => if p = pref then evs else [])
            l sheet m).buckets p =
          if p = pref then m pref ++ (evs.take PER_PREF_LIMIT).map wMsg else m p)
      ∧ (walkerPhase today (fun p => if p = pref then evs else []) l sheet m).rems =
          l.map (fun p => if p = pref then evs.drop PER_PREF_LIMIT else []) := by
  intro l
  induction l with
  | nil =>
    intro sheet m _ hp _ _
    cases hp
  | cons q ps ih =>
    intro sheet m hnd hp hfresh hndu
    rw [List.nodup_cons] at hnd
    by_cases hq : q = pref
    · subst hq
      have hfd : (if q = q then evs else ([] : List WEv)) = evs := if_pos rfl
      have hpw := processW_allNew0 today evs sheet hfresh hndu
      have hnil : ∀ p ∈ ps, (fun p => if p = q then evs else []) p = [] := by
        intro p hpp
        have hne : p ≠ q := fun h => hnd.1 (h ▸ hpp)
        simp [hne]
      have hni := walkerPhase_nilAll today (fun p => if p = q then evs else []) ps
        (sheet ++ (evs.take PER_PREF_LIMIT).map
          (fun e => save_row today (walkerSaveDict e)))
        (fun p => if p = q
          then m q ++ List.map wMsg (List.take PER_PREF_LIMIT evs)
          else m p)
        hnil
      refine ⟨?_, ?_, ?_⟩
      · show (walkerPhase today _ (q :: ps) sheet m).sheet = _
        simp only [walkerPhase, eq_self_iff_true, if_true, hpw]
        exact hni.1
      · intro p
        show (walkerPhase today _ (q :: ps) sheet m).buckets p = _
        simp only [walkerPhase, eq_self_iff_true, if_true, hpw]
        rw [hni.2.1 p]
      · show (walkerPhase today _ (q :: ps) sheet m).rems = _
        simp only [walkerPhase, eq_self_iff_true, if_true, hpw, List.map_cons]
        rw [hni.2.2]
        refine congrArg (evs.drop PER_PREF_LIMIT :: ·) ?_
        apply List.map_congr_left
        intro p hpp
        have hne : p ≠ q := fun h => hnd.1 (h ▸ hpp)
        simp [hne]
    · have hpmem : pref ∈ ps := by
        rcases List.mem_cons.mp hp with h | h
        · exact absurd h.symm hq
        · exact h
      have hfq : (if q = pref then evs else ([] : List WEv)) = [] := if_neg hq
      have hpw : processW today ([] : List WEv) sheet 0 = ⟨sheet, [], [], []⟩ := by
        simp [processW]
      have hih := ih sheet
        (fun p => if p = q then m q ++ List.map wMsg [] else m p)
        hnd.2 hpmem hfresh hndu
      refine ⟨?_, ?_, ?_⟩
      · show (walkerPhase today _ (q :: ps) sheet m).sheet = _
        simp only [walkerPhase, hfq, hpw]
        exact hih.1
      · intro p
        show (walkerPhase today _ (q :: ps) sheet m).buckets p = _
        simp only [walkerPhase, hfq, hpw]
        rw [hih.2.1 p]
        by_cases hpq : p = pref
        · subst hpq
          have hqp : p ≠ q := fun h => hq h.symm
          simp [hqp]
        · by_cases hpq2 : p = q
          · subst hpq2
            simp [hpq]
          · simp [hpq, hpq2]
      · show (walkerPhase today _ (q :: ps) sheet m).rems = _
        simp only [walkerPhase, hfq, hpw, List.map_cons]
        rw [hih.2.2]
        simp [hq]

lemma bucketOut_le_one {b : List String} (h : b.length ≤ 1) : bucketOut b = [] := by
  rw [bucketOut, if_pos h]

lemma outputPhase_single (m : Buckets) (pref : String) (hp : pref ∈ prefOrder)
    (h : ∀ p ∈ prefOrder, p ≠ pref → (m p).length ≤ 1) :
    outputPhase m = bucketOut (m pref) := by
  have hp' : pref = "東京" ∨ pref = "神奈川" ∨ pref = "千葉" ∨ pref = "埼玉" := by
    simpa [prefOrder] using hp
  rcases hp' with rfl | rfl | rfl | rfl
  · simp [outputPhase, prefOrder,
      bucketOut_le_one (h "神奈川" (by decide) (by decide)),
      bucketOut_le_one (h "千葉" (by decide) (by decide)),
      bucketOut_le_one (h "埼玉" (by decide) (by decide))]
  · simp [outputPhase, prefOrder,
      bucketOut_le_one (h "東京" (by decide) (by decide)),
      bucketOut_le_one (h "千葉" (by decide) (by decide)),
      bucketOut_le_one (h "埼玉" (by decide) (by decide))]
  · simp [outputPhase, prefOrder,
      bucketOut_le_one (h "東京" (by decide) (by decide)),
      bucketOut_le_one (h "神奈川" (by decide) (by decide)),
      bucketOut_le_one (h "埼玉" (by decide) (by decide))]
  · simp [outputPhase, prefOrder,
      bucketOut_le_one (h "東京" (by decide) (by decide)),
      bucketOut_le_one (h "神奈川" (by decide) (by decide)),
      bucketOut_le_one (h "千葉" (by decide) (by decide))]

/-- C8: a region offered 15 new, non-duplicate events in one source pass
with the per-region cap of 10: exactly the first 10 are appended to that
region's bucket and recorded in the ledger; the banner line plus those 10
entries are the only content the region contributes to the final output;
and the events beyond the cap are neither bucketed nor recorded. -/
theorem claim_C8 (today pref : String) (evs : List WEv) (sheet0 : List Row)
    (hp : pref ∈ prefOrder) (hlen : evs.length = 15)
    (hfresh : ∀ e ∈ evs, e.url ≠ "" ∧ e.url ∉ col4 sheet0)
    (hnd : (evs.map (fun e => e.url)).Nodup) :
    (runPipeline today (fun p => if p = pref then evs else []) [] sheet0).sheet =
      sheet0 ++ (evs.take 10).map (fun e => save_row today (walkerSaveDict e))
    ∧ (runPipeline today (fun p => if p = pref then evs else []) [] sheet0).buckets pref =
        banner pref :: (evs.take 10).map wMsg
    ∧ (runPipeline today (fun p => if p = pref then evs else []) [] sheet0).broadcasts =
        chunk (joinSep "\n\n" (banner pref :: (evs.take 10).map wMsg)).data
    ∧ (∀ e ∈ evs.drop 10, e.url ∉
        col4 (runPipeline today (fun p => if p = pref then evs else []) [] sheet0).sheet) := by
  have hw := walkerPhase_single today evs pref prefOrder sheet0 initBuckets
    (by decide) hp hfresh hnd
  simp only [PER_PREF_LIMIT] at hw
  have hrs : (runPipeline today (fun p => if p = pref then evs else []) [] sheet0).sheet =
      (walkerPhase today (fun p => if p = pref then evs else [])
        prefOrder sheet0 initBuckets).sheet := rfl
  have hrb : ∀ p,
      (runPipeline today (fun p => if p = pref then evs else []) [] sheet0).buckets p =
      (walkerPhase today (fun p => if p = pref then evs else [])
        prefOrder sheet0 initBuckets).buckets p := fun p => rfl
  have hro : (runPipeline today (fun p => if p = pref then evs else []) [] sheet0).broadcasts =
      outputPhase (walkerPhase today (fun p => if p = pref then evs else [])
        prefOrder sheet0 initBuckets).buckets := rfl
  have hinitp : initBuckets pref = [banner pref] := by
    simp [initBuckets, hp]
  have hlen10 : ((evs.take 10).map wMsg).length = 10 := by
    rw [List.length_map, List.length_take, hlen]
    rfl
  have hside : ∀ p ∈ prefOrder, p ≠ pref →
      ((walkerPhase today (fun p => if p = pref then evs else [])
        prefOrder sheet0 initBuckets).buckets p).length ≤ 1 := by
    intro p hpp hne
    rw [hw.2.1 p, if_neg hne]
    simp only [initBuckets]
    split
    · simp
    · simp
  refine ⟨?_, ?_, ?_, ?_⟩
  · rw [hrs, hw.1]
  · rw [hrb pref, hw.2.1 pref, if_pos rfl, hinitp]
    rfl
  · rw [hro, outputPhase_single _ pref hp hside, hw.2.1 pref, if_pos rfl, hinitp]
    have hb : ([banner pref] ++ (evs.take 10).map wMsg) =
        banner pref :: (evs.take 10).map wMsg := rfl
    rw [hb, bucketOut,
      if_neg (by
        simp only [List.length_cons, hlen10]
        omega)]
  · intro e he
    rw [hrs, hw.1, col4_append]
    intro hmem
    rcases List.mem_append.mp hmem with hm | hm
    · exact (hfresh e (List.mem_of_mem_drop he)).2 hm
    · have hm' : e.url ∈ (evs.take 10).map (fun e => e.url) := by
        simpa [col4, List.map_map, Function.comp, walker_row_url] using hm
      have hsplit : ((evs.take 10).map (fun e => e.url)
          ++ (evs.drop 10).map (fun e => e.url)).Nodup := by
        rw [← List.map_append, List.take_append_drop]
        exact hnd
      exact List.disjoint_of_nodup_append hsplit hm' (List.mem_map_of_mem _ he)

/-- Witness for C8 at fifteen concrete events offered to 神奈川. -/
theorem claim_C8_witness :
    (runPipeline "2024-06-01" (fun p => if p = "神奈川" then evs15 else []) [] []).sheet =
      [] ++ (evs15.take 10).map (fun e => save_row "2024-06-01" (walkerSaveDict e))
    ∧ (runPipeline "2024-06-01"
        (fun p => if p = "神奈川" then evs15 else []) [] []).broadcasts =
        chunk (joinSep "\n\n" (banner "神奈川" :: (evs15.take 10).map wMsg)).data := by
  have h := claim_C8 "2024-06-01" "神奈川" evs15 [] (by decide) (by decide)
    (by decide) (by decide)
  exact ⟨h.1, h.2.2.1⟩

/-!
### Trace shape and freshness of selections.
-/

lemma processW_trace (today : String) :
    ∀ (evs : List WEv) (sheet : List Row) (cnt : Nat),
      (processW today evs sheet cnt).trace =
        ((processW today evs sheet cnt).sel).map
          (fun e => Action.append (wRow today e)) := by
  intro evs
  induction evs with
  | nil =>
    intro sheet cnt
    rfl
  | cons e rest ih =>
    intro sheet cnt
    by_cases h1 : e.url = ""
    · simp only [processW, h1, if_pos]
      exact ih sheet cnt
    · cases h2 : already_sent e.url (Except.ok (col4 sheet)) with
      | true =>
        simp only [processW, h1, h2, if_pos, if_neg, if_true, if_false]
        exact ih sheet cnt
      | false =>
        by_cases h3 : cnt + 1 ≥ PER_PREF_LIMIT
        · simp [processW, h1, h2, h3]
        · simp only [processW, h1, h2, h3, if_pos, if_neg, if_true, if_false,
            Bool.false_eq_true, List.map_cons]
          exact congrArg (Action.append (wRow today e) :: ·)
            (ih (save_event sheet (walkerSaveDict e) today (Except.ok ())) (cnt + 1))

lemma processT_trace (today : String) :
    ∀ (tevs : List TEv) (sheet : List Row) (m : Buckets) (cnt : Nat),
      (processT today tevs sheet m cnt).trace =
        ((processT today tevs sheet m cnt).sel).map
          (fun e => Action.append (tRow today e)) := by
  intro tevs
  induction tevs with
  | nil =>
    intro sheet m cnt
    rfl
  | cons e rest ih =>
    intro sheet m cnt
    by_cases h1 : dedupe_key e = ""
    · simp only [processT, h1, if_pos]
      exact ih sheet m cnt
    · cases h2 : already_sent (dedupe_key e) (Except.ok (col4 sheet)) with
      | true =>
        simp only [processT, h1, h2, if_pos, if_neg, if_true, if_false]
        exact ih sheet m cnt
      | false =>
        by_cases h3 : cnt + 1 ≥ 10
        · simp [processT, h1, h2, h3]
        · simp only [processT, h1, h2, h3, if_pos, if_neg, if_true, if_false,
            Bool.false_eq_true, List.map_cons]
          exact congrArg (Action.append (tRow today e) :: ·)
            (ih (save_event sheet (tabSaveDict e) today (Except.ok ()))
              (bucketAppend m (tabPref e) (tMsg e)) (cnt + 1))

lemma walkerPhase_trace (today : String) (f : String → List WEv) :
    ∀ (l : List String) (sheet : List Row) (m : Buckets),
      ∃ rs : List Row,
        (walkerPhase today f l sheet m).trace = rs.map Action.append := by
  intro l
  induction l with
  | nil =>
    intro sheet m
    exact ⟨[], rfl⟩
  | cons pref ps ih =>
    intro sheet m
    obtain ⟨rs2, h2⟩ := ih (processW today (f pref) sheet 0).sheet
      (fun p => if p = pref
        then m pref ++ (processW today (f pref) sheet 0).sel.map wMsg
        else m p)
    refine ⟨(processW today (f pref) sheet 0).sel.map (wRow today) ++ rs2, ?_⟩
    show (walkerPhase today f (pref :: ps) sheet m).trace = _
    simp only [walkerPhase]
    rw [processW_trace today (f pref) sheet 0, h2]
    simp [List.map_append, List.map_map, Function.comp]

lemma processW_sel_fresh (today : String) :
    ∀ (evs : List WEv) (sheet : List Row) (cnt : Nat),
      ∀ e ∈ (processW today evs sheet cnt).sel, e.url ∉ col4 sheet := by
  intro evs
  induction evs with
  | nil =>
    intro sheet cnt e he
    simp [processW] at he
  | cons e rest ih =>
    intro sheet cnt e' he'
    by_cases h1 : e.url = ""
    · simp only [processW, h1, if_pos] at he'
      exact ih sheet cnt e' he'
    · cases h2 : already_sent e.url (Except.ok (col4 sheet)) with
      | true =>
        simp only [processW, h1, h2, if_pos, if_neg, if_true, if_false] at he'
        exact ih sheet cnt e' he'
      | false =>
        have hfresh : e.url ∉ col4 sheet := by
          simpa [already_sent, h1] using h2
        by_cases h3 : cnt + 1 ≥ PER_PREF_LIMIT
        · simp only [processW, h1, h2, h3, if_pos, if_neg, if_true, if_false,
            Bool.false_eq_true, List.mem_singleton] at he'
          subst he'
          exact hfresh
        · simp only [processW, h1, h2, h3, save_event, if_pos, if_neg, if_true,
            if_false, Bool.false_eq_true] at he'
          rcases List.mem_cons.mp he' with rfl | hm
          · exact hfresh
          · intro hmem
            exact ih (sheet ++ [save_row today (walkerSaveDict e)]) (cnt + 1) e' hm
              (mem_col4_ext hmem)

lemma processT_sel_fresh (today : String) :
    ∀ (tevs : List TEv) (sheet : List Row) (m : Buckets) (cnt : Nat),
      ∀ e ∈ (processT today tevs sheet m cnt).sel, dedupe_key e ∉ col4 sheet := by
  intro tevs
  induction tevs with
  | nil =>
    intro sheet m cnt e he
    simp [processT] at he
  | cons e rest ih =>
    intro sheet m cnt e' he'
    by_cases h1 : dedupe_key e = ""
    · simp only [processT, h1, if_pos] at he'
      exact ih sheet m cnt e' he'
    · cases h2 : already_sent (dedupe_key e) (Except.ok (col4 sheet)) with
      | true =>
        simp only [processT, h1, h2, if_pos, if_neg, if_true, if_false] at he'
        exact ih sheet m cnt e' he'
      | false =>
        have hfresh : dedupe_key e ∉ col4 sheet := by
          simpa [already_sent, h1] using h2
        by_cases h3 : cnt + 1 ≥ 10
        · simp only [processT, h1, h2, h3, if_pos, if_neg, if_true, if_false,
            Bool.false_eq_true, List.mem_singleton] at he'
          subst he'
          exact hfresh
        · simp only [processT, h1, h2, h3, save_event, if_pos, if_neg, if_true,
            if_false, Bool.false_eq_true] at he'
          rcases List.mem_cons.mp he' with rfl | hm
          · exact hfresh
          · intro hmem
            exact ih (sheet ++ [save_row today (tabSaveDict e)])
              (bucketAppend m (tabPref e) (tMsg e)) (cnt + 1) e' hm
              (mem_col4_ext hmem)

lemma walkerPhase_sel_fresh (today : String) (f : String → List WEv) :
    ∀ (l : List String) (sheet : List Row) (m : Buckets),
      ∀ evsl ∈ (walkerPhase today f l sheet m).sels,
        ∀ e ∈ evsl, e.url ∉ col4 sheet := by
  intro l
  induction l with
  | nil =>
    intro sheet m evsl hl
    simp [walkerPhase] at hl
  | cons pref ps ih =>
    intro sheet m evsl hl e he
    have hl' : evsl ∈ (processW today (f pref) sheet 0).sel ::
        (walkerPhase today f ps (processW today (f pref) sheet 0).sheet
          (fun p => if p = pref
            then m pref ++ (processW today (f pref) sheet 0).sel.map wMsg
            else m p)).sels := hl
    rcases List.mem_cons.mp hl' with rfl | hm
    · exact processW_sel_fresh today (f pref) sheet 0 e he
    · intro hmem
      have hnot := ih (processW today (f pref) sheet 0).sheet
        (fun p => if p = pref
          then m pref ++ (processW today (f pref) sheet 0).sel.map wMsg
          else m p) evsl hm e he
      obtain ⟨ext, hext⟩ := processW_sheet_ext today (f pref) sheet 0
      exact hnot (by rw [hext]; exact mem_col4_ext hmem)

/-- C10: the run's externally visible trace is all ledger appends followed
by all broadcasts — every append for a dispatched event happens strictly
before any outbound broadcast is sent; and an event whose key is already
in the starting ledger (as it is after a run that failed between the
append and the dispatch) is never selected by the run: it is skipped as a
duplicate and never delivered. -/
theorem claim_C10 (today : String) (fetchW : String → List WEv)
    (tabEvents : List TEv) (sheet0 : List Row) :
    (∃ rows : List Row,
        (runPipeline today fetchW tabEvents sheet0).trace =
          rows.map Action.append ++
            ((runPipeline today fetchW tabEvents sheet0).broadcasts).map
              Action.broadcast)
    ∧ (∀ u ∈ col4 sheet0,
        (∀ evsl ∈ (runPipeline today fetchW tabEvents sheet0).wSels,
          ∀ e ∈ evsl, e.url ≠ u)
        ∧ (∀ e ∈ (runPipeline today fetchW tabEvents sheet0).tSel,
            dedupe_key e ≠ u)) := by
  constructor
  · obtain ⟨rs1, h1⟩ := walkerPhase_trace today fetchW prefOrder sheet0 initBuckets
    have h2 := processT_trace today tabEvents
      (walkerPhase today fetchW prefOrder sheet0 initBuckets).sheet
      (walkerPhase today fetchW prefOrder sheet0 initBuckets).buckets 0
    refine ⟨rs1 ++ (processT today tabEvents
      (walkerPhase today fetchW prefOrder sheet0 initBuckets).sheet
      (walkerPhase today fetchW prefOrder sheet0 initBuckets).buckets 0).sel.map
        (tRow today), ?_⟩
    show (walkerPhase today fetchW prefOrder sheet0 initBuckets).trace ++ _ ++ _ = _
    rw [h1, h2]
    simp [List.map_append, List.map_map, Function.comp_def, List.append_assoc,
      runPipeline]
  · intro u hu
    constructor
    · intro evsl hl e he heq
      exact walkerPhase_sel_fresh today fetchW prefOrder sheet0 initBuckets evsl hl e he
        (heq ▸ hu)
    · intro e he heq
      obtain ⟨ext, hext⟩ := walkerPhase_sheet_ext today fetchW prefOrder sheet0 initBuckets
      refine processT_sel_fresh today tabEvents
        (walkerPhase today fetchW prefOrder sheet0 initBuckets).sheet
        (walkerPhase today fetchW prefOrder sheet0 initBuckets).buckets 0 e he ?_
      rw [hext]
      exact mem_col4_ext (heq ▸ hu)

/-- Witness for C10: a ledger already holding key `"w1"`; the run never
selects the walker event carrying that url again. -/
theorem claim_C10_witness :
    ∀ evsl ∈ (runPipeline "2024-06-02" wfixOne tabFixOne
        [{ sent_date := "2024-06-01", name := "", period := "", url := "w1",
           venue := "" }]).wSels,
      ∀ e ∈ evsl, e.url ≠ "w1" := by
  have h := (claim_C10 "2024-06-02" wfixOne tabFixOne
    [{ sent_date := "2024-06-01", name := "", period := "", url := "w1",
       venue := "" }]).2 "w1" (by decide)
  exact h.1

end EventBot
